import Mathlib

/-!
# Capsule tenant reconciliation: membership and additional resources

A shallow embedding of `api/v1beta1/tenant_func.go` and
`controllers/tenant/additional_resources.go`, followed by the properties proved
about it.

Conventions of the embedding.

* A Go `string` is a Lean `String`. Go orders strings bytewise; on valid UTF-8
  this is the order of the code points, which is the order of `String`.
* A Go `map[string]string` is an optional association list read by first match;
  `none` is the nil map.
* A Go slice that the code tests against `nil` is an `Option (List _)`; other
  slices are lists.
* A pointer field that may be nil is an `Option`.
-/

namespace Capsule

/-! ## Data model -/

/-- A Go `map[string]string`: `none` is the nil map, `some l` a map holding the
entries of `l` (the first entry of a key is the one that counts) -/
abbrev StringMap := Option (List (String × String))

/-- The two-valued map read `v, ok := m[k]`: `some v` when `ok`, else `none`.
Reading a nil map finds nothing -/
def StringMap.lookup (m : StringMap) (k : String) : Option String :=
  match m with
  | none => none
  | some l => l.lookup k

/-- Type `metav1.OwnerReference`, the fields the code reads -/
structure OwnerReference where
  Kind : String
  Name : String
deriving DecidableEq, Repr

/-- Constant `corev1.NamespaceActive`; a `corev1.NamespacePhase` is a string -/
def NamespaceActive : String := "Active"

/-- Type `corev1.NamespaceStatus` -/
structure NamespaceStatus where
  Phase : String
deriving DecidableEq, Repr

/-- Type `corev1.Namespace`, the fields the code reads. `OwnerReferences` is
`none` for the nil slice -/
structure Namespace where
  Name : String
  Labels : StringMap
  OwnerReferences : Option (List OwnerReference)
  Status : NamespaceStatus
deriving DecidableEq, Repr

/-- Type `NamespaceOptions`; `Quota` is an `*int32`, `none` when nil -/
structure NamespaceOptions where
  Quota : Option Int
deriving DecidableEq, Repr

/-- Type `selection.Operator`. The library's operators, and `unsupported s` for
any other string a cast `selection.Operator(s)` may produce -/
inductive Operator where
  | In
  | NotIn
  | Equals
  | DoubleEquals
  | NotEquals
  | Exists
  | DoesNotExist
  | GreaterThan
  | LessThan
  | unsupported (s : String)
deriving DecidableEq, Repr

/-- Type `metav1.LabelSelectorRequirement`. The operator is kept as the value the
cast `selection.Operator(v.Operator)` yields -/
structure LabelSelectorRequirement where
  Key : String
  Operator : Operator
  Values : List String
deriving DecidableEq, Repr

/-- Type `metav1.LabelSelector`. `MatchLabels` lists the entries of the map in
the order in which the `range` loop visits them -/
structure LabelSelector where
  MatchLabels : List (String × String)
  MatchExpressions : List LabelSelectorRequirement
deriving DecidableEq, Repr

/-- Type `AdditionalResources`: the namespace selector and the raw templates -/
structure AdditionalResources where
  NamespaceSelector : LabelSelector
  Items : List String
deriving DecidableEq, Repr

/-- Type `TenantSpec`, the fields the code reads -/
structure TenantSpec where
  NamespaceOptions : Option NamespaceOptions
  AdditionalResources : Option AdditionalResources
deriving DecidableEq, Repr

/-- Type `TenantStatus`. `Size` is a Go `uint` -/
structure TenantStatus where
  Size : Nat
  Namespaces : List String
deriving DecidableEq, Repr

/-- Type `Tenant` -/
structure Tenant where
  Name : String
  Labels : StringMap
  Spec : TenantSpec
  Status : TenantStatus
deriving DecidableEq, Repr

/-! ## `api/v1beta1/tenant_func.go` -/

/-- Function `Tenant.IsCordoned` (tenant_func.go 14-20) -/
def Tenant.IsCordoned (t : Tenant) : Bool :=
  match t.Labels.lookup "capsule.clastix.io/cordon" with
  | some v => if v = "enabled" then true else false
  | none => false

/-- Function `Tenant.IsFull` (tenant_func.go 22-29). The comparison is between
`len(t.Status.Namespaces)` and `int(*Quota)`, both exact as integers -/
def Tenant.IsFull (t : Tenant) : Bool :=
  match t.Spec.NamespaceOptions with
  | none => false
  | some opts =>
    match opts.Quota with
    | none => false
    | some q => decide ((t.Status.Namespaces.length : Int) ≥ q)

/-- Function `Tenant.nsBlongTenant` (tenant_func.go 54-67) -/
def Tenant.nsBlongTenant (t : Tenant) (ownerReference : Option (List OwnerReference)) : Bool :=
  match ownerReference with
  | none => false
  | some refs => refs.any (fun r => decide (r.Kind = "Tenant" ∧ r.Name = t.Name))

/-- Library function `sort.Strings`: sorts in increasing order. Strings that
compare equal are identical, so the sorted result of a list is unique and any
sorting algorithm computes it; insertion sort is used here -/
def sortStrings (l : List String) : List String :=
  l.insertionSort (· ≤ ·)

/-- One iteration of the loop of `AssignNamespaces` (tenant_func.go 34-42) -/
def assignStep (t : Tenant) (l : List String) (ns : Namespace) : List String :=
  if !t.nsBlongTenant ns.OwnerReferences then l
  else if ns.Status.Phase = NamespaceActive then l ++ [ns.Name]
  else l

/-- Function `Tenant.AssignNamespaces` (tenant_func.go 31-48). `uint(len(l))` is
exact: a slice length is a non-negative `int`, and `uint` has the width of `int` -/
def Tenant.AssignNamespaces (t : Tenant) (namespaces : List Namespace) : Tenant :=
  let l := sortStrings (namespaces.foldl (assignStep t) [])
  { t with Status := { Namespaces := l, Size := l.length } }

/-- The namespaces of a snapshot that count for the tenant's status: owned by the
tenant through an owner reference and in the Active phase -/
def counted (t : Tenant) (ns : Namespace) : Bool :=
  t.nsBlongTenant ns.OwnerReferences && decide (ns.Status.Phase = NamespaceActive)


/-! ## Collaborators of `controllers/tenant/additional_resources.go`

The label-selector library, the template decoder and the object store are not
part of the repository. The selector library is modelled from its contract; the
decoder and the store's listing are parameters of the embedding; the store's
create-or-update is modelled on an explicit cluster state. -/

/-- A non-nil Go `error`: its message, and whether `apierrors.IsNotFound` holds
of it. A Go `error` that may be nil is an `Option GoError` -/
structure GoError where
  Message : String
  NotFound : Bool
deriving DecidableEq, Repr

/-- Library function `client.IgnoreNotFound`: nil for a not-found error, the
error itself otherwise -/
def IgnoreNotFound (err : GoError) : Option GoError :=
  if err.NotFound then none else some err

/-- Type `labels.Requirement` -/
structure Requirement where
  key : String
  operator : Operator
  strValues : List String
deriving DecidableEq, Repr

/-- Decimal digits of `strconv.ParseInt`: a non-empty run of `0`..`9` -/
def parseDigits (cs : List Char) : Option Nat :=
  if cs.isEmpty then none
  else if cs.all Char.isDigit then some (cs.foldl (fun n c => 10 * n + (c.toNat - '0'.toNat)) 0)
  else none

/-- Library function `strconv.ParseInt(s, 10, 64)`: an optional sign, decimal
digits, and a value within the range of `int64`; `none` when it returns an error -/
def ParseInt (s : String) : Option Int :=
  match s.toList with
  | [] => none
  | c :: rest =>
    if c = '-' then
      match parseDigits rest with
      | some n => if n ≤ 2 ^ 63 then some (-(n : Int)) else none
      | none => none
    else
      match parseDigits (if c = '+' then rest else c :: rest) with
      | some n => if n < 2 ^ 63 then some (n : Int) else none
      | none => none

/-- Splits a string at each occurrence of a separator, as `strings.Split` does:
the empty string gives one empty part -/
def splitChars (sep : Char) : List Char → List (List Char)
  | [] => [[]]
  | c :: cs =>
    if c = sep then [] :: splitChars sep cs
    else
      match splitChars sep cs with
      | [] => [[c]]
      | part :: parts => (c :: part) :: parts

/-- The expression `([A-Za-z0-9][-A-Za-z0-9_.]*)?[A-Za-z0-9]` of the validation
library, matched against the whole string: not empty, letters, digits, `-`, `_`
and `.` only, a letter or a digit first and last -/
def isQualifiedNameChars (cs : List Char) : Bool :=
  match cs, cs.getLast? with
  | first :: _, some last =>
    first.isAlphanum && last.isAlphanum
      && cs.all (fun c => c.isAlphanum || decide (c = '-') || decide (c = '_') || decide (c = '.'))
  | _, _ => false

/-- One label of a DNS subdomain: not empty, lower-case letters, digits and `-`
only, a lower-case letter or a digit first and last -/
def isDNS1123Label (cs : List Char) : Bool :=
  match cs, cs.getLast? with
  | first :: _, some last =>
    (first.isLower || first.isDigit) && (last.isLower || last.isDigit)
      && cs.all (fun c => c.isLower || c.isDigit || decide (c = '-'))
  | _, _ => false

/-- Library function `validation.IsDNS1123Subdomain`, as a test: at most 253
characters, labels separated by dots -/
def IsDNS1123Subdomain (cs : List Char) : Bool :=
  decide (cs.length ≤ 253) && (splitChars '.' cs).all isDNS1123Label

/-- Library function `validation.IsQualifiedName`, as a test: a name of at most
63 characters, with an optional DNS subdomain before a single `/`. A string that
passes holds ASCII characters only, so its length in bytes is its length -/
def IsQualifiedName (value : String) : Bool :=
  match splitChars '/' value.toList with
  | [name] => decide (name.length ≤ 63) && isQualifiedNameChars name
  | [pre, name] =>
    !pre.isEmpty && IsDNS1123Subdomain pre
      && decide (name.length ≤ 63) && isQualifiedNameChars name
  | _ => false

/-- Library function `validation.IsValidLabelValue`, as a test: at most 63
characters, and empty or of the form of a qualified name without a subdomain -/
def IsValidLabelValue (value : String) : Bool :=
  decide (value.toList.length ≤ 63) && (value.toList.isEmpty || isQualifiedNameChars value.toList)

/-- Library function `validateLabelKey`: the error for a key that is not a
qualified name, `none` for a valid key -/
def validateLabelKey (k : String) : Option GoError :=
  if IsQualifiedName k then none else some ⟨"invalid label key", false⟩

/-- Library function `validateLabelValue`: the error for a value that is not a
valid label value, `none` for a valid one -/
def validateLabelValue (_k : String) (v : String) : Option GoError :=
  if IsValidLabelValue v then none else some ⟨"invalid label value", false⟩

/-- The `switch` of `labels.NewRequirement` on the operator: the error for an
operator the library does not know and for a number or form of values the
operator does not take, `none` otherwise -/
def validateOperator (op : Operator) (vals : List String) : Option GoError :=
  match op with
  | .In | .NotIn =>
    if vals.length = 0 then
      some ⟨"values set can not be empty for the operators in and notin", false⟩
    else none
  | .Equals | .DoubleEquals | .NotEquals =>
    if vals.length ≠ 1 then
      some ⟨"exact-match compatibility requires one single value", false⟩
    else none
  | .Exists | .DoesNotExist =>
    if vals.length ≠ 0 then
      some ⟨"values set must be empty for exists and does not exist", false⟩
    else none
  | .GreaterThan | .LessThan =>
    if vals.length ≠ 1 then
      some ⟨"exactly one value is required for the operators gt and lt", false⟩
    else if vals.any (fun v => (ParseInt v).isNone) then
      some ⟨"the value must be an integer for the operators gt and lt", false⟩
    else none
  | .unsupported _ => some ⟨"operator is not recognized", false⟩

/-- Library function `labels.NewRequirement`, the selector/requirement
collaborator, which is not in the repository; modelled from its contract. It
builds one requirement from (key, operator, values) and fails with a
configuration error, the first found, on a key that is not a valid label key, on
an operator it does not know, on a number or form of values the operator does
not take, and on a value that is not a valid label value. -/
def NewRequirement (key : String) (op : Operator) (vals : List String) :
    Except GoError Requirement :=
  match validateLabelKey key with
  | some err => .error err
  | none =>
    match validateOperator op vals with
    | some err => .error err
    | none =>
      match vals.findSome? (validateLabelValue key) with
      | some err => .error err
      | none => .ok { key := key, operator := op, strValues := vals }

/-- Library method `Requirement.hasValue` -/
def Requirement.hasValue (r : Requirement) (value : String) : Bool :=
  r.strValues.any (fun v => decide (v = value))

/-- Library method `labels.Set.Has` -/
def StringMap.Has (ls : StringMap) (key : String) : Bool :=
  (ls.lookup key).isSome

/-- Library method `labels.Set.Get`: the value, the empty string when absent -/
def StringMap.Get (ls : StringMap) (key : String) : String :=
  (ls.lookup key).getD ""

/-- Library method `Requirement.Matches`: whether a label set satisfies the
requirement -/
def Requirement.Matches (r : Requirement) (ls : StringMap) : Bool :=
  match r.operator with
  | .In | .Equals | .DoubleEquals =>
    if !ls.Has r.key then false else r.hasValue (ls.Get r.key)
  | .NotIn | .NotEquals =>
    if !ls.Has r.key then true else !r.hasValue (ls.Get r.key)
  | .Exists => ls.Has r.key
  | .DoesNotExist => !ls.Has r.key
  | .GreaterThan | .LessThan =>
    if !ls.Has r.key then false
    else
      match ParseInt (ls.Get r.key) with
      | none => false
      | some lsValue =>
        match r.strValues with
        | [v] =>
          match ParseInt v with
          | none => false
          | some rValue =>
            (r.operator = .GreaterThan && decide (lsValue > rValue))
              || (r.operator = .LessThan && decide (lsValue < rValue))
        | _ => false
  | .unsupported _ => false

/-- Type `labels.Selector`: the requirements in the order in which they were
added. The library keeps them ordered by key, which changes neither what the
selector holds nor what it matches -/
abbrev Selector := List Requirement

/-- Library function `labels.NewSelector`: the selector without requirements -/
def NewSelector : Selector := []

/-- Library method `Selector.Add` with one requirement -/
def Selector.Add (s : Selector) (r : Requirement) : Selector := s ++ [r]

/-- Library method `Selector.Matches`: every requirement matches -/
def Selector.Matches (s : Selector) (ls : StringMap) : Bool :=
  s.all (fun r => r.Matches ls)

/-- What the selector documentation says of one expression constraint: when a
label set satisfies (key, operator, values) -/
def SatisfiedBy (e : LabelSelectorRequirement) (ls : StringMap) : Prop :=
  match e.Operator with
  | .In => ∃ v, ls.lookup e.Key = some v ∧ v ∈ e.Values
  | .NotIn => ∀ v, ls.lookup e.Key = some v → v ∉ e.Values
  | .Equals | .DoubleEquals => ∃ v, ls.lookup e.Key = some v ∧ e.Values = [v]
  | .NotEquals => ∀ v, ls.lookup e.Key = some v → e.Values ≠ [v]
  | .Exists => ∃ v, ls.lookup e.Key = some v
  | .DoesNotExist => ls.lookup e.Key = none
  | .GreaterThan =>
    ∃ v w a b, ls.lookup e.Key = some v ∧ e.Values = [w] ∧ ParseInt v = some a
      ∧ ParseInt w = some b ∧ a > b
  | .LessThan =>
    ∃ v w a b, ls.lookup e.Key = some v ∧ e.Values = [w] ∧ ParseInt v = some a
      ∧ ParseInt w = some b ∧ a < b
  | .unsupported _ => False

/-- Type `rbac.Subject` -/
structure Subject where
  Kind : String
  APIGroup : String
  Name : String
  Namespace : String
deriving DecidableEq, Repr

/-- Type `rbac.RoleBinding`: the subjects, and in `Rest` everything else it
holds (type and object metadata, role reference), which the code does not touch -/
structure RoleBinding (R : Type) where
  Rest : R
  Subjects : List Subject
deriving DecidableEq, Repr

/-- Type `controllerutil.OperationResult` -/
inductive OperationResult where
  | None
  | Created
  | Updated
deriving DecidableEq, Repr

/-- What the run of the reconciler does to its surroundings, in order: a listing
of namespaces with a selector, the start of a synchronizer unit for a
target namespace and a template, a create-or-update of an object and what it
returned -/
inductive Event (Obj : Type) where
  | List (selector : Selector)
  | Run (ns : String) (o : String)
  | CreateOrUpdate (obj : Obj) (result : Except GoError OperationResult)

/-- The cluster as the reconciler sees it: the objects the store holds, and the
record of the events so far -/
structure Cluster (Obj : Type) where
  objects : List Obj
  events : List (Event Obj)

/-- The collaborators outside the repository, for a generic object
representation `Obj` (an `unstructured.Unstructured`).

`TypeLabel` - Modelled from the spec: `capsulev1beta1.GetTypeLabel(&Tenant{})`,
which is not among the sources; the key of the tenant-ownership label.
`Unmarshal` is `yaml.Unmarshal` into a fresh object. `GetKind`, `GetName`,
`GetNamespace` and `SetNamespace` are the accessors of the generic object.
`FromUnstructured` and `ToUnstructured` are the conversions of
`runtime.DefaultUnstructuredConverter` to and from the typed role binding.
`ListNamespaces` is `r.List` for namespaces with a label selector.
`storeFault` says when a create-or-update fails, and with which error, from the
cluster state and the object submitted. -/
structure Collaborators (Obj R : Type) where
  TypeLabel : String
  Unmarshal : String → Except GoError Obj
  GetKind : Obj → String
  GetName : Obj → String
  GetNamespace : Obj → String
  SetNamespace : Obj → String → Obj
  FromUnstructured : Obj → Except GoError (RoleBinding R)
  ToUnstructured : RoleBinding R → Obj
  ListNamespaces : Selector → Except GoError (List Namespace)
  storeFault : Cluster Obj → Obj → Option GoError

/-- The identity of an object in the store: kind, namespace and name -/
def objectKey {Obj R : Type} (c : Collaborators Obj R) (obj : Obj) : String × String × String :=
  (c.GetKind obj, c.GetNamespace obj, c.GetName obj)

/-- Modelled from the spec: the object-store collaborator
`controllerutil.CreateOrUpdate` with the mutate function of the code, which
changes nothing. It fails with a store error, leaving the store as it is; or
finds an object of the same identity and leaves it unmodified; or creates the
object as submitted. The call and its result are recorded. -/
def CreateOrUpdate {Obj R : Type} (c : Collaborators Obj R) (s : Cluster Obj) (obj : Obj) :
    Cluster Obj × Except GoError OperationResult :=
  match c.storeFault s obj with
  | some err =>
    ({ s with events := s.events ++ [Event.CreateOrUpdate obj (.error err)] }, .error err)
  | none =>
    if s.objects.any (fun e => decide (objectKey c e = objectKey c obj)) then
      ({ s with events := s.events ++ [Event.CreateOrUpdate obj (.ok .None)] }, .ok .None)
    else
      ({ objects := s.objects ++ [obj],
         events := s.events ++ [Event.CreateOrUpdate obj (.ok .Created)] }, .ok .Created)

/-! ## `controllers/tenant/additional_resources.go` -/

/-- First loop of `syncAdditionalResources` (additional_resources.go 38-44): one
`In` requirement with a single value for each `MatchLabels` entry -/
def addMatchLabels (labelSelector : Selector) :
    List (String × String) → Except GoError Selector
  | [] => .ok labelSelector
  | (k, v) :: rest =>
    match NewRequirement k Operator.In [v] with
    | .error err => .error err
    | .ok s => addMatchLabels (labelSelector.Add s) rest

/-- Second loop of `syncAdditionalResources` (additional_resources.go 45-51): one
requirement for each `MatchExpressions` entry, under its declared operator -/
def addMatchExpressions (labelSelector : Selector) :
    List LabelSelectorRequirement → Except GoError Selector
  | [] => .ok labelSelector
  | v :: rest =>
    match NewRequirement v.Key v.Operator v.Values with
    | .error err => .error err
    | .ok s => addMatchExpressions (labelSelector.Add s) rest

/-- The requirement `assignedNamespace` (additional_resources.go 55). The code
discards the error of `NewRequirement` and dereferences the result. For the
operator `Equals` with exactly one value the constructor can only object to the
form of the key or of the value; the library then returns the requirement it
built next to the error, so that the requirement dereferenced is the same in
both cases. (Under a library that returns nil with the error the dereference
would stop the program.) -/
def assignedNamespace (capsuleLabel name : String) : Requirement :=
  match NewRequirement capsuleLabel Operator.Equals [name] with
  | .ok r => r
  | .error _ => { key := capsuleLabel, operator := Operator.Equals, strValues := [name] }

/-- The selector of `syncAdditionalResources` (additional_resources.go 37-56):
the caller constraints, then the requirement that the namespace is assigned to
the tenant; an error as soon as one constraint is rejected -/
def buildSelector {Obj R : Type} (c : Collaborators Obj R) (tenant : Tenant)
    (a : AdditionalResources) : Except GoError Selector :=
  match addMatchLabels NewSelector a.NamespaceSelector.MatchLabels with
  | .error err => .error err
  | .ok labelSelector =>
    match addMatchExpressions labelSelector a.NamespaceSelector.MatchExpressions with
    | .error err => .error err
    | .ok labelSelector => .ok (labelSelector.Add (assignedNamespace c.TypeLabel tenant.Name))

/-- Function `isRoleBinding` (additional_resources.go 109-111) -/
def isRoleBinding {Obj R : Type} (c : Collaborators Obj R) (obj : Obj) : Bool :=
  c.GetKind obj = "RoleBinding"

/-- Function `asRoleBinding` (additional_resources.go 113-122). Its argument is
the address of a local variable, so the `isNil` guard does not fire -/
def asRoleBinding {Obj R : Type} (c : Collaborators Obj R) (obj : Obj) :
    Except GoError (RoleBinding R) :=
  c.FromUnstructured obj

/-- The closure `createResource(ns, o)` (additional_resources.go 65-93), run on a
cluster state: the state it leaves and the error it returns (`none` for nil).
The start of the unit is recorded -/
def createResource {Obj R : Type} (c : Collaborators Obj R) (ns : String) (o : String)
    (s : Cluster Obj) : Cluster Obj × Option GoError :=
  let s : Cluster Obj := { s with events := s.events ++ [Event.Run ns o] }
  match c.Unmarshal o with
  | .error err => (s, some err)
  | .ok object =>
    let converted : Except GoError Obj :=
      if isRoleBinding c object then
        match asRoleBinding c object with
        | .error err => .error err
        | .ok rb =>
          .ok (c.ToUnstructured
            { rb with Subjects := rb.Subjects.map (fun subject => { subject with Namespace := ns }) })
      else .ok object
    match converted with
    | .error err => (s, some err)
    | .ok object =>
      match CreateOrUpdate c s (c.SetNamespace object ns) with
      | (s, .ok _) => (s, none)
      | (s, .error err) => (s, some err)

/-- The loops that launch the units (additional_resources.go 95-105): for each
listed namespace in the Active phase and each template, one unit
`createResource(n.Name, o)`, in this order; a namespace in another phase is
skipped -/
def launch (a : AdditionalResources) (items : List Namespace) : List (String × String) :=
  items.foldl
    (fun group n =>
      if n.Status.Phase ≠ NamespaceActive then group
      else a.Items.foldl (fun group o => group ++ [(n.Name, o)]) group)
    []

/-- Library method `errgroup.Group.Wait` over the launched units, the units run
one after the other in launch order: every unit runs, and the error returned is
the first non-nil error a unit returned. `first` is the error recorded so far -/
def Wait {Obj R : Type} (c : Collaborators Obj R) :
    List (String × String) → Cluster Obj → Option GoError → Cluster Obj × Option GoError
  | [], s, first => (s, first)
  | (ns, o) :: rest, s, first =>
    match createResource c ns o s with
    | (s, err) => Wait c rest s (match first with | some e => some e | none => err)

/-- Function `Manager.syncAdditionalResources` (additional_resources.go 30-107),
run on a cluster state: the state it leaves and the error it returns (`none`
for nil) -/
def syncAdditionalResources {Obj R : Type} (c : Collaborators Obj R) (tenant : Tenant)
    (s : Cluster Obj) : Cluster Obj × Option GoError :=
  match tenant.Spec.AdditionalResources with
  | none => (s, none)
  | some a =>
    match buildSelector c tenant a with
    | .error err => (s, some err)
    | .ok labelSelector =>
      let s : Cluster Obj := { s with events := s.events ++ [Event.List labelSelector] }
      match c.ListNamespaces labelSelector with
      | .error err => (s, IgnoreNotFound err)
      | .ok items => Wait c (launch a items) s none

/-- The caller constraints of a selector as requirements, in the order in which
the code adds them -/
def callerRequirements (sel : LabelSelector) : List Requirement :=
  sel.MatchLabels.map (fun kv => { key := kv.1, operator := Operator.In, strValues := [kv.2] })
    ++ sel.MatchExpressions.map
      (fun e => { key := e.Key, operator := e.Operator, strValues := e.Values })

/-- The full cross product of the Active listed namespaces and the templates,
one namespace after the other -/
def units (a : AdditionalResources) (items : List Namespace) : List (String × String) :=
  (items.filter (fun n => decide (n.Status.Phase = NamespaceActive))).flatMap
    (fun n => a.Items.map (fun o => (n.Name, o)))

/-- One unit as it ran: the cluster state before it, its target namespace and
template, the state after it and the error it returned -/
structure UnitRun (Obj : Type) where
  before : Cluster Obj
  ns : String
  o : String
  after : Cluster Obj
  err : Option GoError

/-- The units as they run one after the other from a cluster state, each from
the state the one before it left -/
def runs {Obj R : Type} (c : Collaborators Obj R) :
    List (String × String) → Cluster Obj → List (UnitRun Obj)
  | [], _ => []
  | (ns, o) :: rest, s =>
    { before := s, ns := ns, o := o,
      after := (createResource c ns o s).1, err := (createResource c ns o s).2 }
      :: runs c rest (createResource c ns o s).1

/-- The object a unit `createResource(ns, o)` hands to create-or-update, or the
error with which it returns before: the template parsed, a role binding decoded,
its subjects rewritten and encoded again, and the namespace set -/
def submitted {Obj R : Type} (c : Collaborators Obj R) (ns : String) (o : String) :
    Except GoError Obj :=
  match c.Unmarshal o with
  | .error err => .error err
  | .ok object =>
    if isRoleBinding c object then
      match asRoleBinding c object with
      | .error err => .error err
      | .ok rb =>
        .ok (c.SetNamespace (c.ToUnstructured
          { rb with Subjects := rb.Subjects.map (fun subject => { subject with Namespace := ns }) })
          ns)
    else .ok (c.SetNamespace object ns)

/-- The unit a `Run` event records; `none` for the other events -/
def Event.unit {Obj : Type} : Event Obj → Option (String × String)
  | .Run ns o => some (ns, o)
  | _ => none

/-- The object a create-or-update event records; `none` for the other events -/
def Event.target {Obj : Type} : Event Obj → Option Obj
  | .CreateOrUpdate obj _ => some obj
  | _ => none

/-- Whether an event is a listing of namespaces -/
def Event.isList {Obj : Type} : Event Obj → Bool
  | .List _ => true
  | _ => false

/-- The cluster state once the listing of namespaces with a selector is recorded -/
def afterList {Obj : Type} (s : Cluster Obj) (labelSelector : Selector) : Cluster Obj :=
  { s with events := s.events ++ [Event.List labelSelector] }

/-! ## Concrete inputs used by the examples -/

/-- A tenant named `oil` with the given quota and status -/
def oilTenant (quota : Option Int) (size : Nat) (namespaces : List String) : Tenant :=
  { Name := "oil"
    Labels := none
    Spec := { NamespaceOptions := some { Quota := quota }, AdditionalResources := none }
    Status := { Size := size, Namespaces := namespaces } }

/-- A namespace with the given name and phase, owned by the tenant `oil` -/
def oilNamespace (name phase : String) : Namespace :=
  { Name := name
    Labels := none
    OwnerReferences := some [{ Kind := "Tenant", Name := "oil" }]
    Status := { Phase := phase } }

/-- A generic object reduced to what the examples need: kind, name, namespace
and, for a role binding, the subjects -/
structure PlainObject where
  kind : String
  name : String
  ns : String
  subjects : List Subject
deriving DecidableEq, Repr

/-- The templates of the examples: `viewers` is a role binding whose subjects
refer to other namespaces, `settings` a config map; anything else does not parse -/
def plainTemplates (o : String) : Except GoError PlainObject :=
  if o = "viewers" then
    .ok { kind := "RoleBinding", name := "viewers", ns := "",
          subjects := [⟨"ServiceAccount", "", "robot", "elsewhere"⟩,
                       ⟨"User", "rbac.authorization.k8s.io", "alice", ""⟩] }
  else if o = "settings" then
    .ok { kind := "ConfigMap", name := "settings", ns := "default", subjects := [] }
  else .error ⟨"cannot parse the template", false⟩

/-- Collaborators of the examples: the store lists `listing` whatever the
selector, and refuses every create-or-update in the namespace `failing` -/
def plainCollaborators (listing : List Namespace) (failing : String) :
    Collaborators PlainObject String :=
  { TypeLabel := "capsule.clastix.io/tenant"
    Unmarshal := plainTemplates
    GetKind := fun obj => obj.kind
    GetName := fun obj => obj.name
    GetNamespace := fun obj => obj.ns
    SetNamespace := fun obj ns => { obj with ns := ns }
    FromUnstructured := fun obj => .ok { Rest := obj.name, Subjects := obj.subjects }
    ToUnstructured := fun rb =>
      { kind := "RoleBinding", name := rb.Rest, ns := "", subjects := rb.Subjects }
    ListNamespaces := fun _ => .ok listing
    storeFault := fun _ obj =>
      if obj.ns = failing then some ⟨"the store refused the object", false⟩ else none }

/-- The tenant `oil` with additional resources: namespaces labelled `env=prod`
whose `tier` is `gold` or `silver`, and the given templates -/
def oilWithResources (exprs : List LabelSelectorRequirement) (items : List String) : Tenant :=
  { Name := "oil"
    Labels := none
    Spec :=
      { NamespaceOptions := none
        AdditionalResources := some
          { NamespaceSelector := { MatchLabels := [("env", "prod")], MatchExpressions := exprs }
            Items := items } }
    Status := { Size := 0, Namespaces := [] } }

/-- The expression constraint `tier in (gold, silver)` -/
def tierGoldSilver : LabelSelectorRequirement :=
  { Key := "tier", Operator := Operator.In, Values := ["gold", "silver"] }

/-- The empty cluster: no objects, no events -/
def emptyCluster : Cluster PlainObject := { objects := [], events := [] }

/-- The tenant `oil` with additional resources selected by the given equality
and expression constraints -/
def oilSelecting (labels : List (String × String)) (exprs : List LabelSelectorRequirement)
    (items : List String) : Tenant :=
  { Name := "oil"
    Labels := none
    Spec :=
      { NamespaceOptions := none
        AdditionalResources := some
          { NamespaceSelector := { MatchLabels := labels, MatchExpressions := exprs }
            Items := items } }
    Status := { Size := 0, Namespaces := [] } }

/-! # Theorems -/

/-! ## Membership calculator: auxiliary facts -/

theorem foldl_assignStep (t : Tenant) (N : List Namespace) (acc : List String) :
    N.foldl (assignStep t) acc = acc ++ (N.filter (counted t)).map (·.Name) := by
  induction N generalizing acc with
  | nil => simp
  | cons ns rest ih =>
    rw [List.foldl_cons, ih]
    by_cases h1 : t.nsBlongTenant ns.OwnerReferences = true
    · by_cases h2 : ns.Status.Phase = NamespaceActive
      · simp [assignStep, counted, h1, h2]
      · simp [assignStep, counted, h1, h2]
    · simp [assignStep, counted, h1]

theorem assigned_eq (t : Tenant) (N : List Namespace) :
    (t.AssignNamespaces N).Status.Namespaces
      = sortStrings ((N.filter (counted t)).map (·.Name)) := by
  simp [Tenant.AssignNamespaces, foldl_assignStep]

theorem assigned_status (t : Tenant) (N : List Namespace) :
    (t.AssignNamespaces N).Status
      = { Namespaces := sortStrings ((N.filter (counted t)).map (·.Name)),
          Size := (sortStrings ((N.filter (counted t)).map (·.Name))).length } := by
  simp [Tenant.AssignNamespaces, foldl_assignStep]

theorem sortStrings_perm (l : List String) : (sortStrings l).Perm l :=
  List.perm_insertionSort _ l

theorem sortStrings_sorted (l : List String) : (sortStrings l).Sorted (· ≤ ·) :=
  List.sorted_insertionSort _ l

theorem nsBlongTenant_iff (t : Tenant) (o : Option (List OwnerReference)) :
    t.nsBlongTenant o = true
      ↔ ∃ refs, o = some refs ∧ ∃ r ∈ refs, r.Kind = "Tenant" ∧ r.Name = t.Name := by
  cases o with
  | none => simp [Tenant.nsBlongTenant]
  | some refs => simp [Tenant.nsBlongTenant]

/-! ## Membership calculator: properties -/

/-- C10: `IsCordoned` is true exactly when the tenant's labels hold the key
`capsule.clastix.io/cordon` with the value `enabled`; it is false for a nil label
map, for an absent label, and for any other value of the label, among them
`Enabled`, `true` and the empty string. -/
theorem C10_isCordoned_iff (t : Tenant) :
    (t.IsCordoned = true ↔ t.Labels.lookup "capsule.clastix.io/cordon" = some "enabled")
    ∧ (t.Labels = none → t.IsCordoned = false)
    ∧ (t.Labels.lookup "capsule.clastix.io/cordon" = none → t.IsCordoned = false)
    ∧ (∀ v, t.Labels.lookup "capsule.clastix.io/cordon" = some v → v ≠ "enabled" →
        t.IsCordoned = false)
    ∧ (∀ v, v ∈ ["Enabled", "true", ""] →
        t.Labels.lookup "capsule.clastix.io/cordon" = some v → t.IsCordoned = false) := by
  refine ⟨?_, ?_, ?_, ?_, ?_⟩
  · unfold Tenant.IsCordoned
    cases h : t.Labels.lookup "capsule.clastix.io/cordon" with
    | none => simp
    | some v => by_cases hv : v = "enabled" <;> simp [hv]
  · intro h
    simp [Tenant.IsCordoned, h, StringMap.lookup]
  · intro h
    simp [Tenant.IsCordoned, h]
  · intro v h hv
    simp [Tenant.IsCordoned, h, hv]
  · intro v hmem h
    have hv : v ≠ "enabled" := by
      simp only [List.mem_cons, List.mem_singleton, List.not_mem_nil, or_false] at hmem
      rcases hmem with rfl | rfl | rfl <;> decide
    simp [Tenant.IsCordoned, h, hv]


/-- C4, the input on which the claim fails: quota 2, two namespace names in the
status sequence, status count 0. `IsFull` answers true although the count is
below the quota. -/
theorem C4_counterexample :
    (oilTenant (some 2) 0 ["oil-dev", "oil-prod"]).Spec.NamespaceOptions = some { Quota := some 2 }
    ∧ (oilTenant (some 2) 0 ["oil-dev", "oil-prod"]).IsFull = true
    ∧ ¬ (((oilTenant (some 2) 0 ["oil-dev", "oil-prod"]).Status.Size : Int) ≥ 2) := by
  decide

/-- C4, amended: `IsFull` is false when `NamespaceOptions` is nil or its `Quota`
is nil; otherwise, with quota `q`, it is true exactly when the length of
`Status.Namespaces` is at least `q`. This is the comparison with `Status.Size`
for every tenant whose `Size` equals that length. -/
theorem C4_isFull_length (t : Tenant) :
    (t.Spec.NamespaceOptions = none → t.IsFull = false)
    ∧ (∀ opts, t.Spec.NamespaceOptions = some opts → opts.Quota = none → t.IsFull = false)
    ∧ (∀ opts q, t.Spec.NamespaceOptions = some opts → opts.Quota = some q →
        (t.IsFull = true ↔ (t.Status.Namespaces.length : Int) ≥ q))
    ∧ (∀ opts q, t.Spec.NamespaceOptions = some opts → opts.Quota = some q →
        t.Status.Size = t.Status.Namespaces.length →
        (t.IsFull = true ↔ (t.Status.Size : Int) ≥ q)) := by
  refine ⟨?_, ?_, ?_, ?_⟩
  · intro h
    simp [Tenant.IsFull, h]
  · intro opts h hq
    simp [Tenant.IsFull, h, hq]
  · intro opts q h hq
    simp [Tenant.IsFull, h, hq]
  · intro opts q h hq hsize
    simp [Tenant.IsFull, h, hq, hsize]

/-- C1: after `AssignNamespaces(N)` a name occurs in `Status.Namespaces` exactly
when some namespace of `N` has that name, is Active and has an owner reference of
kind `Tenant` named after the tenant. A namespace whose owner-reference list is
nil or empty contributes nothing, and the status the tenant had before has no
influence. -/
theorem C1_assigned_membership (t : Tenant) (N : List Namespace) :
    (∀ s, s ∈ (t.AssignNamespaces N).Status.Namespaces ↔
        ∃ ns ∈ N, ns.Name = s ∧ ns.Status.Phase = NamespaceActive ∧
          ∃ refs, ns.OwnerReferences = some refs ∧
            ∃ r ∈ refs, r.Kind = "Tenant" ∧ r.Name = t.Name)
    ∧ (∀ pre post ns, N = pre ++ ns :: post →
        (ns.OwnerReferences = none ∨ ns.OwnerReferences = some []) →
        (t.AssignNamespaces N).Status = (t.AssignNamespaces (pre ++ post)).Status)
    ∧ (∀ old : TenantStatus,
        ({ t with Status := old }.AssignNamespaces N).Status = (t.AssignNamespaces N).Status) := by
  refine ⟨?_, ?_, ?_⟩
  · intro s
    rw [assigned_eq, (sortStrings_perm _).mem_iff]
    simp only [List.mem_map, List.mem_filter, counted, Bool.and_eq_true, decide_eq_true_eq,
      nsBlongTenant_iff]
    constructor
    · rintro ⟨ns, ⟨hmem, hown, hact⟩, rfl⟩
      exact ⟨ns, hmem, rfl, hact, hown⟩
    · rintro ⟨ns, hmem, rfl, hact, hown⟩
      exact ⟨ns, ⟨hmem, hown, hact⟩, rfl⟩
  · intro pre post ns hN hrefs
    have hc : counted t ns = false := by
      rcases hrefs with h | h <;> simp [counted, Tenant.nsBlongTenant, h]
    subst hN
    rw [assigned_status, assigned_status, List.filter_append, List.filter_append,
      List.filter_cons, hc]
    rfl
  · intro old
    have hc : counted { t with Status := old } = counted t := by
      funext ns
      simp [counted, Tenant.nsBlongTenant]
    rw [assigned_status, assigned_status, hc]

/-- C2: after `AssignNamespaces(N)` the sequence `Status.Namespaces` is sorted in
ascending order, each element being at most its successor, and `Status.Size` is
the length of the sequence. -/
theorem C2_assigned_sorted_size (t : Tenant) (N : List Namespace) :
    (t.AssignNamespaces N).Status.Namespaces.Sorted (· ≤ ·)
    ∧ (∀ i (h : i + 1 < (t.AssignNamespaces N).Status.Namespaces.length),
        (t.AssignNamespaces N).Status.Namespaces[i] ≤ (t.AssignNamespaces N).Status.Namespaces[i + 1])
    ∧ (t.AssignNamespaces N).Status.Size = (t.AssignNamespaces N).Status.Namespaces.length := by
  have hs : (t.AssignNamespaces N).Status.Namespaces.Sorted (· ≤ ·) := by
    rw [assigned_eq]
    exact sortStrings_sorted _
  refine ⟨hs, ?_, rfl⟩
  intro i h
  exact List.pairwise_iff_getElem.mp hs i (i + 1) (by omega) h (by omega)

/-- C3, the input on which the claim fails: a snapshot holding two
Active namespaces of the tenant with the same name. The name is kept twice. -/
theorem C3_counterexample :
    ((oilTenant none 0 []).AssignNamespaces
        [oilNamespace "oil-dev" "Active", oilNamespace "oil-dev" "Active"]).Status.Namespaces
      = ["oil-dev", "oil-dev"]
    ∧ ¬ ((oilTenant none 0 []).AssignNamespaces
        [oilNamespace "oil-dev" "Active", oilNamespace "oil-dev" "Active"]).Status.Namespaces.Nodup := by
  have h : ((oilTenant none 0 []).AssignNamespaces
        [oilNamespace "oil-dev" "Active", oilNamespace "oil-dev" "Active"]).Status.Namespaces
      = ["oil-dev", "oil-dev"] := by
    simp [Tenant.AssignNamespaces, assignStep, Tenant.nsBlongTenant, oilTenant, oilNamespace,
      NamespaceActive, sortStrings]
  rw [h]
  exact ⟨rfl, by simp⟩

/-- C3, amended: after `AssignNamespaces(N)` the sequence `Status.Namespaces` has
no duplicates exactly when no two Active namespaces of `N` owned by the tenant
share a name; in particular it has none when the names of the namespaces of `N`
are pairwise distinct. -/
theorem C3_assigned_nodup (t : Tenant) (N : List Namespace) :
    ((t.AssignNamespaces N).Status.Namespaces.Nodup ↔
        ((N.filter (counted t)).map (·.Name)).Nodup)
    ∧ ((N.map (·.Name)).Nodup → (t.AssignNamespaces N).Status.Namespaces.Nodup) := by
  have hiff : (t.AssignNamespaces N).Status.Namespaces.Nodup ↔
      ((N.filter (counted t)).map (·.Name)).Nodup := by
    rw [assigned_eq]
    exact (sortStrings_perm _).nodup_iff
  refine ⟨hiff, fun h => hiff.mpr ?_⟩
  exact List.Nodup.sublist (List.Sublist.map _ (List.filter_sublist N)) h

/-! ## Selector builder: auxiliary facts -/

theorem NewRequirement_ok {key : String} {op : Operator} {vals : List String} {r : Requirement}
    (h : NewRequirement key op vals = .ok r) :
    r = { key := key, operator := op, strValues := vals } ∧ validateOperator op vals = none := by
  unfold NewRequirement at h
  cases hk : validateLabelKey key with
  | some err => simp [hk] at h
  | none =>
    cases ho : validateOperator op vals with
    | some err => simp [hk, ho] at h
    | none =>
      cases hv : vals.findSome? (validateLabelValue key) with
      | some err => simp [hk, ho, hv] at h
      | none =>
        simp only [hk, ho, hv] at h
        injection h with h
        exact ⟨h.symm, rfl⟩

theorem NewRequirement_cases (key : String) (op : Operator) (vals : List String) :
    (NewRequirement key op vals = .ok { key := key, operator := op, strValues := vals })
    ∨ ∃ err, NewRequirement key op vals = .error err := by
  cases h : NewRequirement key op vals with
  | error err => exact Or.inr ⟨err, rfl⟩
  | ok r => rw [(NewRequirement_ok h).1]; exact Or.inl rfl

theorem assignedNamespace_eq (capsuleLabel name : String) :
    assignedNamespace capsuleLabel name
      = { key := capsuleLabel, operator := Operator.Equals, strValues := [name] } := by
  unfold assignedNamespace
  split
  · next r h => exact (NewRequirement_ok h).1
  · rfl

theorem addMatchLabels_ok (sel : Selector) (ml : List (String × String))
    (hvalid : ∀ kv ∈ ml, ∃ r, NewRequirement kv.1 Operator.In [kv.2] = .ok r) :
    addMatchLabels sel ml
      = .ok (sel ++ ml.map
          (fun kv => { key := kv.1, operator := Operator.In, strValues := [kv.2] })) := by
  induction ml generalizing sel with
  | nil => simp [addMatchLabels]
  | cons kv rest ih =>
    obtain ⟨k, v⟩ := kv
    obtain ⟨r, hr⟩ := hvalid (k, v) (List.mem_cons_self _ _)
    have hr2 := (NewRequirement_ok hr).1
    subst hr2
    have hrest : ∀ kv ∈ rest, ∃ r, NewRequirement kv.1 Operator.In [kv.2] = .ok r :=
      fun kv hkv => hvalid kv (List.mem_cons_of_mem _ hkv)
    simp only at hr
    simp [addMatchLabels, hr, ih _ hrest, Selector.Add]

theorem addMatchLabels_error (sel : Selector) (ml : List (String × String))
    (hbad : ∃ kv ∈ ml, ∃ err, NewRequirement kv.1 Operator.In [kv.2] = .error err) :
    ∃ pre kv post err, ml = pre ++ kv :: post
      ∧ (∀ x ∈ pre, ∃ r, NewRequirement x.1 Operator.In [x.2] = .ok r)
      ∧ NewRequirement kv.1 Operator.In [kv.2] = .error err
      ∧ addMatchLabels sel ml = .error err := by
  induction ml generalizing sel with
  | nil => simp at hbad
  | cons kv rest ih =>
    obtain ⟨k, v⟩ := kv
    cases h : NewRequirement k Operator.In [v] with
    | error err =>
      exact ⟨[], (k, v), rest, err, rfl, by simp, h, by simp [addMatchLabels, h]⟩
    | ok r =>
      have hrest : ∃ kv ∈ rest, ∃ err, NewRequirement kv.1 Operator.In [kv.2] = .error err := by
        obtain ⟨kv, hkv, err, herr⟩ := hbad
        rcases List.mem_cons.mp hkv with rfl | hmem
        · simp only at herr
          rw [h] at herr
          cases herr
        · exact ⟨kv, hmem, err, herr⟩
      obtain ⟨pre, kv, post, err, hsplit, hpre, herr, hres⟩ := ih (sel.Add r) hrest
      refine ⟨(k, v) :: pre, kv, post, err, by rw [hsplit]; rfl, ?_, herr,
        by simp [addMatchLabels, h, hres]⟩
      intro x hx
      rcases List.mem_cons.mp hx with rfl | hx
      · exact ⟨r, h⟩
      · exact hpre x hx

theorem addMatchExpressions_ok (sel : Selector) (me : List LabelSelectorRequirement)
    (hvalid : ∀ e ∈ me, ∃ r, NewRequirement e.Key e.Operator e.Values = .ok r) :
    addMatchExpressions sel me
      = .ok (sel ++ me.map
          (fun e => { key := e.Key, operator := e.Operator, strValues := e.Values })) := by
  induction me generalizing sel with
  | nil => simp [addMatchExpressions]
  | cons e rest ih =>
    obtain ⟨r, hr⟩ := hvalid e (List.mem_cons_self _ _)
    have hr2 := (NewRequirement_ok hr).1
    subst hr2
    have hrest : ∀ e ∈ rest, ∃ r, NewRequirement e.Key e.Operator e.Values = .ok r :=
      fun e he => hvalid e (List.mem_cons_of_mem _ he)
    simp [addMatchExpressions, hr, ih _ hrest, Selector.Add]

theorem addMatchExpressions_error (sel : Selector) (me : List LabelSelectorRequirement)
    (hbad : ∃ e ∈ me, ∃ err, NewRequirement e.Key e.Operator e.Values = .error err) :
    ∃ pre e post err, me = pre ++ e :: post
      ∧ (∀ x ∈ pre, ∃ r, NewRequirement x.Key x.Operator x.Values = .ok r)
      ∧ NewRequirement e.Key e.Operator e.Values = .error err
      ∧ addMatchExpressions sel me = .error err := by
  induction me generalizing sel with
  | nil => simp at hbad
  | cons e rest ih =>
    cases h : NewRequirement e.Key e.Operator e.Values with
    | error err =>
      exact ⟨[], e, rest, err, rfl, by simp, h, by simp [addMatchExpressions, h]⟩
    | ok r =>
      have hrest : ∃ e ∈ rest, ∃ err, NewRequirement e.Key e.Operator e.Values = .error err := by
        obtain ⟨e2, he2, err, herr⟩ := hbad
        rcases List.mem_cons.mp he2 with rfl | hmem
        · rw [h] at herr
          cases herr
        · exact ⟨e2, hmem, err, herr⟩
      obtain ⟨pre, e2, post, err, hsplit, hpre, herr, hres⟩ := ih (sel.Add r) hrest
      refine ⟨e :: pre, e2, post, err, by rw [hsplit]; rfl, ?_, herr,
        by simp [addMatchExpressions, h, hres]⟩
      intro x hx
      rcases List.mem_cons.mp hx with rfl | hx
      · exact ⟨r, h⟩
      · exact hpre x hx

theorem hasValue_iff (r : Requirement) (value : String) :
    r.hasValue value = true ↔ value ∈ r.strValues := by
  simp [Requirement.hasValue]

theorem matches_in_single (k v : String) (ls : StringMap) :
    Requirement.Matches { key := k, operator := Operator.In, strValues := [v] } ls = true
      ↔ ls.lookup k = some v := by
  cases h : ls.lookup k with
  | none => simp [Requirement.Matches, StringMap.Has, h]
  | some w =>
    simp [Requirement.Matches, StringMap.Has, StringMap.Get, Requirement.hasValue, h]
    exact eq_comm

theorem matches_equals_single (k v : String) (ls : StringMap) :
    Requirement.Matches { key := k, operator := Operator.Equals, strValues := [v] } ls = true
      ↔ ls.lookup k = some v := by
  cases h : ls.lookup k with
  | none => simp [Requirement.Matches, StringMap.Has, h]
  | some w =>
    simp [Requirement.Matches, StringMap.Has, StringMap.Get, Requirement.hasValue, h]
    exact eq_comm

theorem matches_iff_satisfiedBy (e : LabelSelectorRequirement) (ls : StringMap)
    (hvalid : ∃ r, NewRequirement e.Key e.Operator e.Values = .ok r) :
    Requirement.Matches { key := e.Key, operator := e.Operator, strValues := e.Values } ls = true
      ↔ SatisfiedBy e ls := by
  obtain ⟨key, op, vals⟩ := e
  obtain ⟨r, hr⟩ := hvalid
  simp only at hr
  have hop := (NewRequirement_ok hr).2
  cases op with
  | In =>
    cases h : ls.lookup key <;>
      simp [Requirement.Matches, SatisfiedBy, StringMap.Has, StringMap.Get,
        Requirement.hasValue, h]
  | NotIn =>
    cases h : ls.lookup key with
    | none => simp [Requirement.Matches, SatisfiedBy, StringMap.Has, h]
    | some v =>
      simp only [Requirement.Matches, SatisfiedBy, StringMap.Has, StringMap.Get, h,
        Option.isSome_some, Bool.not_true, Bool.false_eq_true, if_false, Option.getD_some,
        Bool.not_eq_true', Option.some.injEq, forall_eq']
      rw [← Bool.not_eq_true, hasValue_iff]
  | Equals =>
    have hlen : vals.length = 1 := by
      by_contra hne
      simp [validateOperator, hne] at hop
    obtain ⟨w, rfl⟩ := List.length_eq_one.mp hlen
    cases h : ls.lookup key <;>
      simp [Requirement.Matches, SatisfiedBy, StringMap.Has, StringMap.Get,
        Requirement.hasValue, h]
  | DoubleEquals =>
    have hlen : vals.length = 1 := by
      by_contra hne
      simp [validateOperator, hne] at hop
    obtain ⟨w, rfl⟩ := List.length_eq_one.mp hlen
    cases h : ls.lookup key <;>
      simp [Requirement.Matches, SatisfiedBy, StringMap.Has, StringMap.Get,
        Requirement.hasValue, h]
  | NotEquals =>
    have hlen : vals.length = 1 := by
      by_contra hne
      simp [validateOperator, hne] at hop
    obtain ⟨w, rfl⟩ := List.length_eq_one.mp hlen
    cases h : ls.lookup key <;>
      simp [Requirement.Matches, SatisfiedBy, StringMap.Has, StringMap.Get,
        Requirement.hasValue, h]
  | Exists =>
    cases h : ls.lookup key <;>
      simp [Requirement.Matches, SatisfiedBy, StringMap.Has, h]
  | DoesNotExist =>
    cases h : ls.lookup key <;>
      simp [Requirement.Matches, SatisfiedBy, StringMap.Has, h]
  | GreaterThan =>
    have hlen : vals.length = 1 := by
      by_contra hne
      simp [validateOperator, hne] at hop
    obtain ⟨w, rfl⟩ := List.length_eq_one.mp hlen
    cases h : ls.lookup key with
    | none => simp [Requirement.Matches, SatisfiedBy, StringMap.Has, h]
    | some v =>
      cases hv : ParseInt v <;> cases hw : ParseInt w <;>
        simp [Requirement.Matches, SatisfiedBy, StringMap.Has, StringMap.Get, h, hv, hw]
  | LessThan =>
    have hlen : vals.length = 1 := by
      by_contra hne
      simp [validateOperator, hne] at hop
    obtain ⟨w, rfl⟩ := List.length_eq_one.mp hlen
    cases h : ls.lookup key with
    | none => simp [Requirement.Matches, SatisfiedBy, StringMap.Has, h]
    | some v =>
      cases hv : ParseInt v <;> cases hw : ParseInt w <;>
        simp [Requirement.Matches, SatisfiedBy, StringMap.Has, StringMap.Get, h, hv, hw]
  | unsupported s =>
    simp [validateOperator] at hop

/-! ## Synchronizer and fan-out: auxiliary facts -/

theorem createResource_eq {Obj R : Type} (c : Collaborators Obj R) (ns o : String)
    (s : Cluster Obj) :
    createResource c ns o s =
      match submitted c ns o with
      | .error err => ({ s with events := s.events ++ [Event.Run ns o] }, some err)
      | .ok obj =>
        match CreateOrUpdate c { s with events := s.events ++ [Event.Run ns o] } obj with
        | (s, .ok _) => (s, none)
        | (s, .error err) => (s, some err) := by
  unfold createResource submitted
  cases c.Unmarshal o with
  | error err => rfl
  | ok object =>
    by_cases hk : isRoleBinding c object = true
    · cases hrb : asRoleBinding c object with
      | error err => simp [hk, hrb]
      | ok rb => simp [hk, hrb]
    · simp [hk]

theorem CreateOrUpdate_events {Obj R : Type} (c : Collaborators Obj R) (s : Cluster Obj)
    (obj : Obj) :
    (CreateOrUpdate c s obj).1.events
      = s.events ++ [Event.CreateOrUpdate obj (CreateOrUpdate c s obj).2] := by
  unfold CreateOrUpdate
  cases c.storeFault s obj with
  | some err => rfl
  | none =>
    by_cases h : s.objects.any (fun e => decide (objectKey c e = objectKey c obj)) = true
    · simp [h]
    · simp [h]

theorem CreateOrUpdate_objects {Obj R : Type} (c : Collaborators Obj R) (s : Cluster Obj)
    (obj : Obj) :
    ((CreateOrUpdate c s obj).2 = .ok OperationResult.Created
        ∧ (CreateOrUpdate c s obj).1.objects = s.objects ++ [obj]
        ∧ ∀ e ∈ s.objects, objectKey c e ≠ objectKey c obj)
    ∨ ((CreateOrUpdate c s obj).2 = .ok OperationResult.None
        ∧ (CreateOrUpdate c s obj).1.objects = s.objects
        ∧ ∃ e ∈ s.objects, objectKey c e = objectKey c obj)
    ∨ ((∃ err, (CreateOrUpdate c s obj).2 = .error err)
        ∧ (CreateOrUpdate c s obj).1.objects = s.objects) := by
  unfold CreateOrUpdate
  cases c.storeFault s obj with
  | some err => exact Or.inr (Or.inr ⟨⟨err, rfl⟩, rfl⟩)
  | none =>
    by_cases h : s.objects.any (fun e => decide (objectKey c e = objectKey c obj)) = true
    · refine Or.inr (Or.inl ?_)
      simp only [h, if_true, true_and]
      simpa using h
    · refine Or.inl ?_
      simp only [h, Bool.false_eq_true, if_false, true_and]
      simpa using h

theorem createResource_error {Obj R : Type} (c : Collaborators Obj R) (ns o : String)
    (s : Cluster Obj) (err : GoError) (h : submitted c ns o = .error err) :
    createResource c ns o s = ({ s with events := s.events ++ [Event.Run ns o] }, some err) := by
  rw [createResource_eq, h]

theorem createResource_ok {Obj R : Type} (c : Collaborators Obj R) (ns o : String)
    (s : Cluster Obj) (obj : Obj) (h : submitted c ns o = .ok obj) :
    createResource c ns o s =
      ((CreateOrUpdate c { s with events := s.events ++ [Event.Run ns o] } obj).1,
       match (CreateOrUpdate c { s with events := s.events ++ [Event.Run ns o] } obj).2 with
       | .ok _ => none
       | .error err => some err) := by
  rw [createResource_eq, h]
  simp only []
  rcases hout : CreateOrUpdate c { s with events := s.events ++ [Event.Run ns o] } obj
    with ⟨s2, r⟩
  cases r <;> rfl

theorem createResource_ok_events {Obj R : Type} (c : Collaborators Obj R) (ns o : String)
    (s : Cluster Obj) (obj : Obj) (h : submitted c ns o = .ok obj) :
    (createResource c ns o s).1.events
      = s.events ++ [Event.Run ns o, Event.CreateOrUpdate obj
          (CreateOrUpdate c { s with events := s.events ++ [Event.Run ns o] } obj).2] := by
  rw [createResource_ok c ns o s obj h]
  simp [CreateOrUpdate_events]


theorem createResource_events {Obj R : Type} (c : Collaborators Obj R) (ns o : String)
    (s : Cluster Obj) :
    ∃ new, (createResource c ns o s).1.events = s.events ++ new
      ∧ new.filterMap Event.unit = [(ns, o)]
      ∧ (∀ e ∈ new, e.isList = false)
      ∧ (∀ obj ∈ new.filterMap Event.target, submitted c ns o = .ok obj) := by
  cases h : submitted c ns o with
  | error err =>
    refine ⟨[Event.Run ns o], ?_, rfl, ?_, ?_⟩
    · rw [createResource_error c ns o s err h]
    · simp [Event.isList]
    · simp [Event.target]
  | ok obj =>
    refine ⟨[Event.Run ns o, Event.CreateOrUpdate obj
      (CreateOrUpdate c { s with events := s.events ++ [Event.Run ns o] } obj).2], ?_, rfl, ?_, ?_⟩
    · exact createResource_ok_events c ns o s obj h
    · simp [Event.isList]
    · simp [Event.target]

theorem createResource_objects {Obj R : Type} (c : Collaborators Obj R) (ns o : String)
    (s : Cluster Obj) :
    (∀ x ∈ s.objects, x ∈ (createResource c ns o s).1.objects)
    ∧ (∀ x ∈ (createResource c ns o s).1.objects, x ∈ s.objects ∨ submitted c ns o = .ok x)
    ∧ (∀ err, (createResource c ns o s).2 = some err →
        (createResource c ns o s).1.objects = s.objects) := by
  cases h : submitted c ns o with
  | error err =>
    rw [createResource_error c ns o s err h]
    exact ⟨fun x hx => hx, fun x hx => Or.inl hx, fun _ _ => rfl⟩
  | ok obj =>
    rw [createResource_ok c ns o s obj h]
    rcases CreateOrUpdate_objects c { s with events := s.events ++ [Event.Run ns o] } obj
      with ⟨hr, ho, _⟩ | ⟨hr, ho, _⟩ | ⟨⟨e, hr⟩, ho⟩
    · simp only [ho, hr]
      refine ⟨fun x hx => List.mem_append_left _ hx, fun x hx => ?_, fun err herr => ?_⟩
      · rcases List.mem_append.mp hx with hx | hx
        · exact Or.inl hx
        · exact Or.inr (by rw [List.mem_singleton.mp hx])
      · cases herr
    · simp only [ho]
      exact ⟨fun x hx => hx, fun x hx => Or.inl hx, fun _ _ => trivial⟩
    · simp only [ho]
      exact ⟨fun x hx => hx, fun x hx => Or.inl hx, fun _ _ => trivial⟩

theorem createResource_success {Obj R : Type} (c : Collaborators Obj R) (ns o : String)
    (s : Cluster Obj) (h : (createResource c ns o s).2 = none) :
    ∃ obj res, submitted c ns o = .ok obj
      ∧ (createResource c ns o s).1.events
          = s.events ++ [Event.Run ns o, Event.CreateOrUpdate obj (.ok res)]
      ∧ (∃ x ∈ (createResource c ns o s).1.objects, objectKey c x = objectKey c obj)
      ∧ (res = OperationResult.Created → obj ∈ (createResource c ns o s).1.objects) := by
  cases hsub : submitted c ns o with
  | error err =>
    rw [createResource_error c ns o s err hsub] at h
    cases h
  | ok obj =>
    have hev := createResource_ok_events c ns o s obj hsub
    have hcr := createResource_ok c ns o s obj hsub
    have hobjs : (createResource c ns o s).1.objects
        = (CreateOrUpdate c { s with events := s.events ++ [Event.Run ns o] } obj).1.objects := by
      rw [hcr]
    rw [hcr] at h
    rcases CreateOrUpdate_objects c { s with events := s.events ++ [Event.Run ns o] } obj
      with ⟨hr, ho, _⟩ | ⟨hr, ho, x, hx, hkey⟩ | ⟨⟨e, hr⟩, ho⟩
    · refine ⟨obj, OperationResult.Created, rfl, ?_, ?_, ?_⟩
      · rw [hev, hr]
      · exact ⟨obj, by simp [hobjs, ho], rfl⟩
      · intro _
        simp [hobjs, ho]
    · refine ⟨obj, OperationResult.None, rfl, ?_, ?_, ?_⟩
      · rw [hev, hr]
      · exact ⟨x, by simpa [hobjs, ho] using hx, hkey⟩
      · intro hres
        cases hres
    · simp only [hr] at h
      cases h

theorem launch_eq_units (a : AdditionalResources) (items : List Namespace) :
    launch a items = units a items := by
  have inner : ∀ (name : String) (tpls : List String) (g : List (String × String)),
      tpls.foldl (fun group o => group ++ [(name, o)]) g = g ++ tpls.map (fun o => (name, o)) := by
    intro name tpls
    induction tpls with
    | nil => intro g; simp
    | cons o rest ih => intro g; simp [ih]
  have outer : ∀ (l : List Namespace) (g : List (String × String)),
      l.foldl
        (fun group n =>
          if n.Status.Phase ≠ NamespaceActive then group
          else a.Items.foldl (fun group o => group ++ [(n.Name, o)]) group) g
        = g ++ units a l := by
    intro l
    induction l with
    | nil => intro g; simp [units]
    | cons n rest ih =>
      intro g
      rw [List.foldl_cons, ih]
      by_cases hp : n.Status.Phase = NamespaceActive
      · simp [units, hp, inner, List.filter_cons]
      · simp [units, hp, List.filter_cons]
  simpa [launch] using outer items []

theorem Wait_state {Obj R : Type} (c : Collaborators Obj R) (us : List (String × String))
    (s : Cluster Obj) (first : Option GoError) :
    (Wait c us s first).1 = (Wait c us s none).1 := by
  induction us generalizing s first with
  | nil => rfl
  | cons u rest ih =>
    obtain ⟨ns, o⟩ := u
    simp only [Wait]
    rw [ih, ih (createResource c ns o s).1 (match (none : Option GoError) with
      | some e => some e | none => (createResource c ns o s).2)]

theorem Wait_cons_state {Obj R : Type} (c : Collaborators Obj R) (ns o : String)
    (rest : List (String × String)) (s : Cluster Obj) (first : Option GoError) :
    (Wait c ((ns, o) :: rest) s first).1 = (Wait c rest (createResource c ns o s).1 none).1 := by
  simp only [Wait]
  rw [Wait_state]

theorem Wait_error {Obj R : Type} (c : Collaborators Obj R) (us : List (String × String))
    (s : Cluster Obj) (first : Option GoError) :
    (Wait c us s first).2
      = match first with
        | some e => some e
        | none => (runs c us s).findSome? (fun r => r.err) := by
  induction us generalizing s first with
  | nil => cases first <;> rfl
  | cons u rest ih =>
    obtain ⟨ns, o⟩ := u
    simp only [Wait, runs]
    rw [ih]
    cases first with
    | some e => rfl
    | none =>
      cases h : (createResource c ns o s).2 with
      | none => simp [List.findSome?_cons, h]
      | some e => simp [List.findSome?_cons, h]

theorem Wait_events {Obj R : Type} (c : Collaborators Obj R) (us : List (String × String))
    (s : Cluster Obj) (first : Option GoError) :
    ∃ new, (Wait c us s first).1.events = s.events ++ new
      ∧ new.filterMap Event.unit = us
      ∧ (∀ e ∈ new, e.isList = false)
      ∧ (∀ obj ∈ new.filterMap Event.target, ∃ u ∈ us, submitted c u.1 u.2 = .ok obj) := by
  induction us generalizing s first with
  | nil => exact ⟨[], by simp [Wait], rfl, by simp, by simp⟩
  | cons u rest ih =>
    obtain ⟨ns, o⟩ := u
    obtain ⟨new1, h1, h2, h3, h4⟩ := createResource_events c ns o s
    obtain ⟨new2, k1, k2, k3, k4⟩ := ih (createResource c ns o s).1 none
    refine ⟨new1 ++ new2, ?_, ?_, ?_, ?_⟩
    · rw [Wait_cons_state, k1, h1, List.append_assoc]
    · rw [List.filterMap_append, h2, k2]
      rfl
    · intro e he
      rcases List.mem_append.mp he with he | he
      · exact h3 e he
      · exact k3 e he
    · intro obj hobj
      rw [List.filterMap_append] at hobj
      rcases List.mem_append.mp hobj with hobj | hobj
      · exact ⟨(ns, o), List.mem_cons_self _ _, h4 obj hobj⟩
      · obtain ⟨u, hu, hsub⟩ := k4 obj hobj
        exact ⟨u, List.mem_cons_of_mem _ hu, hsub⟩

theorem Wait_objects {Obj R : Type} (c : Collaborators Obj R) (us : List (String × String))
    (s : Cluster Obj) (first : Option GoError) :
    (∀ x ∈ s.objects, x ∈ (Wait c us s first).1.objects)
    ∧ (∀ x ∈ (Wait c us s first).1.objects,
        x ∈ s.objects ∨ ∃ u ∈ us, submitted c u.1 u.2 = .ok x) := by
  induction us generalizing s first with
  | nil => exact ⟨fun x hx => hx, fun x hx => Or.inl hx⟩
  | cons u rest ih =>
    obtain ⟨ns, o⟩ := u
    obtain ⟨h1, h2, _⟩ := createResource_objects c ns o s
    obtain ⟨k1, k2⟩ := ih (createResource c ns o s).1 none
    rw [Wait_cons_state]
    refine ⟨fun x hx => k1 x (h1 x hx), fun x hx => ?_⟩
    rcases k2 x hx with hx | ⟨u, hu, hsub⟩
    · rcases h2 x hx with hx | hsub
      · exact Or.inl hx
      · exact Or.inr ⟨(ns, o), List.mem_cons_self _ _, hsub⟩
    · exact Or.inr ⟨u, List.mem_cons_of_mem _ hu, hsub⟩

theorem runs_units {Obj R : Type} (c : Collaborators Obj R) (us : List (String × String))
    (s : Cluster Obj) :
    (runs c us s).map (fun r => (r.ns, r.o)) = us := by
  induction us generalizing s with
  | nil => rfl
  | cons u rest ih =>
    obtain ⟨ns, o⟩ := u
    simp [runs, ih]

theorem runs_after {Obj R : Type} (c : Collaborators Obj R) (us : List (String × String))
    (s : Cluster Obj) (first : Option GoError) :
    ∀ r ∈ runs c us s,
      r.after = (createResource c r.ns r.o r.before).1
      ∧ r.err = (createResource c r.ns r.o r.before).2
      ∧ (∀ x ∈ r.after.objects, x ∈ (Wait c us s first).1.objects) := by
  induction us generalizing s first with
  | nil => intro r hr; simp [runs] at hr
  | cons u rest ih =>
    obtain ⟨ns, o⟩ := u
    intro r hr
    rw [Wait_cons_state]
    simp only [runs, List.mem_cons] at hr
    rcases hr with rfl | hr
    · exact ⟨rfl, rfl, fun x hx => (Wait_objects c rest _ none).1 x hx⟩
    · exact ih (createResource c ns o s).1 none r hr

theorem createResource_added {Obj R : Type} (c : Collaborators Obj R) (ns o : String)
    (s : Cluster Obj) :
    ∃ added, (createResource c ns o s).1.objects = s.objects ++ added
      ∧ ∀ x ∈ added, submitted c ns o = .ok x := by
  cases h : submitted c ns o with
  | error err =>
    rw [createResource_error c ns o s err h]
    exact ⟨[], by simp, by simp⟩
  | ok obj =>
    rw [createResource_ok c ns o s obj h]
    rcases CreateOrUpdate_objects c { s with events := s.events ++ [Event.Run ns o] } obj
      with ⟨_, ho, _⟩ | ⟨_, ho, _⟩ | ⟨_, ho⟩
    · exact ⟨[obj], ho, by simp⟩
    · exact ⟨[], by simpa using ho, by simp⟩
    · exact ⟨[], by simpa using ho, by simp⟩

theorem Wait_added {Obj R : Type} (c : Collaborators Obj R) (us : List (String × String))
    (s : Cluster Obj) (first : Option GoError) :
    ∃ added, (Wait c us s first).1.objects = s.objects ++ added
      ∧ ∀ x ∈ added, ∃ u ∈ us, submitted c u.1 u.2 = .ok x := by
  induction us generalizing s first with
  | nil => exact ⟨[], by simp [Wait], by simp⟩
  | cons u rest ih =>
    obtain ⟨ns, o⟩ := u
    obtain ⟨add1, h1, h2⟩ := createResource_added c ns o s
    obtain ⟨add2, k1, k2⟩ := ih (createResource c ns o s).1 none
    refine ⟨add1 ++ add2, ?_, ?_⟩
    · rw [Wait_cons_state, k1, h1, List.append_assoc]
    · intro x hx
      rcases List.mem_append.mp hx with hx | hx
      · exact ⟨(ns, o), List.mem_cons_self _ _, h2 x hx⟩
      · obtain ⟨u, hu, hsub⟩ := k2 x hx
        exact ⟨u, List.mem_cons_of_mem _ hu, hsub⟩

theorem submitted_namespace {Obj R : Type} (c : Collaborators Obj R) (ns o : String) (obj : Obj)
    (hNs : ∀ x n, c.GetNamespace (c.SetNamespace x n) = n)
    (h : submitted c ns o = .ok obj) : c.GetNamespace obj = ns := by
  unfold submitted at h
  cases hu : c.Unmarshal o with
  | error err => simp [hu] at h
  | ok object =>
    simp only [hu] at h
    by_cases hk : isRoleBinding c object = true
    · cases hrb : asRoleBinding c object with
      | error err => simp [hk, hrb] at h
      | ok rb =>
        simp only [hk, hrb, if_true] at h
        injection h with h
        rw [← h, hNs]
    · simp only [hk, Bool.false_eq_true, if_false] at h
      injection h with h
      rw [← h, hNs]

theorem units_target (a : AdditionalResources) (items : List Namespace) :
    ∀ u ∈ units a items,
      ∃ n ∈ items, n.Status.Phase = NamespaceActive ∧ n.Name = u.1 ∧ u.2 ∈ a.Items := by
  intro u hu
  simp only [units, List.mem_flatMap, List.mem_filter, decide_eq_true_eq, List.mem_map] at hu
  obtain ⟨n, ⟨hn, hp⟩, o, ho, rfl⟩ := hu
  exact ⟨n, hn, hp, rfl, ho⟩

theorem units_skip (a : AdditionalResources) (pre post : List Namespace) (n : Namespace)
    (hphase : n.Status.Phase ≠ NamespaceActive) :
    units a (pre ++ n :: post) = units a (pre ++ post) := by
  simp [units, List.filter_append, List.filter_cons, hphase]

theorem findSome_first {α β : Type} (f : α → Option β) (l : List α) (b : β)
    (h : l.findSome? f = some b) :
    ∃ i, ∃ _ : i < l.length, f l[i] = some b
      ∧ ∀ j (_ : j < i) (_ : j < l.length), f l[j] = none := by
  induction l with
  | nil => simp at h
  | cons x rest ih =>
    rw [List.findSome?_cons] at h
    cases hx : f x with
    | some y =>
      rw [hx] at h
      simp only [Option.some.injEq] at h
      subst h
      exact ⟨0, by simp, by simpa using hx, fun j hj _ => absurd hj (by omega)⟩
    | none =>
      rw [hx] at h
      obtain ⟨i, hi, hfi, hbefore⟩ := ih h
      refine ⟨i + 1, by simpa using hi, by simpa using hfi, ?_⟩
      intro j hj hl
      cases j with
      | zero => simpa using hx
      | succ k => simpa using hbefore k (by omega) (by simpa using hl)

theorem syncAdditionalResources_listed {Obj R : Type} (c : Collaborators Obj R) (t : Tenant)
    (a : AdditionalResources) (sel : Selector) (items : List Namespace) (s : Cluster Obj)
    (ha : t.Spec.AdditionalResources = some a)
    (hsel : buildSelector c t a = .ok sel)
    (hlist : c.ListNamespaces sel = .ok items) :
    syncAdditionalResources c t s = Wait c (units a items) (afterList s sel) none := by
  simp [syncAdditionalResources, ha, hsel, hlist, launch_eq_units, afterList]

theorem findSome_some_iff {α β : Type} (f : α → Option β) (l : List α) :
    (∃ b, l.findSome? f = some b) ↔ ∃ x ∈ l, ∃ b, f x = some b := by
  induction l with
  | nil => simp
  | cons x rest ih =>
    rw [List.findSome?_cons]
    cases hx : f x with
    | some y =>
      constructor
      · intro _
        exact ⟨x, List.mem_cons_self _ _, y, hx⟩
      · intro _
        exact ⟨y, rfl⟩
    | none =>
      simp only []
      rw [ih]
      constructor
      · rintro ⟨z, hz, b, hb⟩
        exact ⟨z, List.mem_cons_of_mem _ hz, b, hb⟩
      · rintro ⟨z, hz, b, hb⟩
        rcases List.mem_cons.mp hz with rfl | hz
        · rw [hx] at hb
          cases hb
        · exact ⟨z, hz, b, hb⟩

/-! ## Selector builder: properties -/

/-- C5: for a tenant whose caller constraints are all accepted, the selector that
`syncAdditionalResources` builds, and lists the namespaces with, matches a label
map exactly when the map has every `MatchLabels` entry, satisfies every
`MatchExpressions` entry under its operator, and carries the tenant-ownership
label with the tenant's name. The ownership requirement is added once, after all
caller constraints, and the selector matches no map that lacks it. -/
theorem C5_selector_conjunction {Obj R : Type} (c : Collaborators Obj R) (t : Tenant)
    (a : AdditionalResources) (s : Cluster Obj) (L : StringMap)
    (ha : t.Spec.AdditionalResources = some a)
    (hlabels : ∀ kv ∈ a.NamespaceSelector.MatchLabels,
      ∃ r, NewRequirement kv.1 Operator.In [kv.2] = .ok r)
    (hexprs : ∀ e ∈ a.NamespaceSelector.MatchExpressions,
      ∃ r, NewRequirement e.Key e.Operator e.Values = .ok r) :
    ∃ sel, buildSelector c t a = .ok sel
      ∧ (∃ rest, (syncAdditionalResources c t s).1.events = s.events ++ Event.List sel :: rest)
      ∧ (sel.Matches L = true ↔
          (∀ kv ∈ a.NamespaceSelector.MatchLabels, L.lookup kv.1 = some kv.2)
          ∧ (∀ e ∈ a.NamespaceSelector.MatchExpressions, SatisfiedBy e L)
          ∧ L.lookup c.TypeLabel = some t.Name)
      ∧ sel = callerRequirements a.NamespaceSelector
          ++ [{ key := c.TypeLabel, operator := Operator.Equals, strValues := [t.Name] }]
      ∧ (sel.Matches L = true → L.lookup c.TypeLabel = some t.Name) := by
  have hbuild : buildSelector c t a = .ok (callerRequirements a.NamespaceSelector
      ++ [{ key := c.TypeLabel, operator := Operator.Equals, strValues := [t.Name] }]) := by
    simp [buildSelector, addMatchLabels_ok _ _ hlabels, addMatchExpressions_ok _ _ hexprs,
      NewSelector,
      Selector.Add, assignedNamespace_eq, callerRequirements]
  have hmatch : Selector.Matches (callerRequirements a.NamespaceSelector
        ++ [{ key := c.TypeLabel, operator := Operator.Equals, strValues := [t.Name] }]) L = true ↔
      (∀ kv ∈ a.NamespaceSelector.MatchLabels, L.lookup kv.1 = some kv.2)
      ∧ (∀ e ∈ a.NamespaceSelector.MatchExpressions, SatisfiedBy e L)
      ∧ L.lookup c.TypeLabel = some t.Name := by
    simp only [Selector.Matches, callerRequirements, List.all_append, List.all_map,
      Bool.and_eq_true, List.all_eq_true, Function.comp, List.all_cons, List.all_nil,
      Bool.and_true, List.forall_mem_map, matches_in_single, matches_equals_single]
    constructor
    · rintro ⟨⟨h1, h2⟩, h3⟩
      exact ⟨h1, fun e he => (matches_iff_satisfiedBy e L (hexprs e he)).mp (h2 e he), h3⟩
    · rintro ⟨h1, h2, h3⟩
      exact ⟨⟨h1, fun e he => (matches_iff_satisfiedBy e L (hexprs e he)).mpr (h2 e he)⟩, h3⟩
  refine ⟨_, hbuild, ?_, hmatch, rfl, fun h => (hmatch.mp h).2.2⟩
  simp only [syncAdditionalResources, ha, hbuild]
  cases c.ListNamespaces (callerRequirements a.NamespaceSelector
      ++ [{ key := c.TypeLabel, operator := Operator.Equals, strValues := [t.Name] }]) with
  | error err => exact ⟨[], rfl⟩
  | ok items =>
    obtain ⟨new, hnew, _⟩ := Wait_events c (launch a items)
      { s with events := s.events ++ [Event.List (callerRequirements a.NamespaceSelector
        ++ [{ key := c.TypeLabel, operator := Operator.Equals, strValues := [t.Name] }])] } none
    exact ⟨new, by rw [hnew]; simp⟩

/-- C5, at a concrete input: equality constraint `env=prod`, expression
constraint `tier in (gold, silver)`, tenant `oil`. The selector matches
a namespace labelled `env=prod`, `tier=gold` and owned by `oil`, and matches
none that lacks the ownership label, the tier or the environment. -/
theorem C5_selector_conjunction_witness :
    ∃ sel, buildSelector (plainCollaborators [] "") (oilWithResources [tierGoldSilver] [])
        { NamespaceSelector := { MatchLabels := [("env", "prod")],
                                 MatchExpressions := [tierGoldSilver] },
          Items := [] } = .ok sel
      ∧ sel.Matches (some [("env", "prod"), ("tier", "gold"),
          ("capsule.clastix.io/tenant", "oil")]) = true
      ∧ sel.Matches (some [("env", "prod"), ("tier", "gold")]) = false
      ∧ sel.Matches (some [("env", "prod"), ("tier", "gold"),
          ("capsule.clastix.io/tenant", "gas")]) = false
      ∧ sel.Matches (some [("env", "prod"), ("capsule.clastix.io/tenant", "oil")]) = false
      ∧ sel.Matches (some [("tier", "gold"), ("capsule.clastix.io/tenant", "oil")]) = false := by
  obtain ⟨sel, hbuild, _, hmatch, hsel, _⟩ :=
    C5_selector_conjunction (plainCollaborators [] "") (oilWithResources [tierGoldSilver] [])
      { NamespaceSelector := { MatchLabels := [("env", "prod")],
                               MatchExpressions := [tierGoldSilver] },
        Items := [] }
      emptyCluster
      (some [("env", "prod"), ("tier", "gold"), ("capsule.clastix.io/tenant", "oil")])
      rfl
      (by
        intro kv hkv
        simp only [List.mem_singleton] at hkv
        subst hkv
        exact ⟨_, rfl⟩)
      (by
        intro e he
        simp only [List.mem_singleton] at he
        subst he
        exact ⟨_, rfl⟩)
  refine ⟨sel, hbuild, hmatch.mpr ⟨?_, ?_, ?_⟩, ?_, ?_, ?_, ?_⟩
  · intro kv hkv
    simp only [List.mem_singleton] at hkv
    subst hkv
    decide
  · intro e he
    simp only [List.mem_singleton] at he
    subst he
    exact ⟨"gold", by decide, by decide⟩
  · decide
  all_goals (subst hsel; decide)

/-! ## Resource synchronizer and fan-out: properties -/

/-- C6: for a template that parses to an object of kind `RoleBinding` and decodes
as a role binding, the unit `createResource(ns, template)` submits to
create-or-update the encoding of a role binding with the namespace set to `ns`:
the namespace field of the submitted object is `ns`, every subject of the role
binding has namespace `ns` whatever the template carried, and the number and
order of the subjects, their kind, API group and name, and the rest of the role
binding are unchanged. -/
theorem C6_role_binding_rewritten {Obj R : Type} (c : Collaborators Obj R) (ns o : String)
    (s : Cluster Obj) (object : Obj) (rb : RoleBinding R)
    (hparse : c.Unmarshal o = .ok object)
    (hkind : c.GetKind object = "RoleBinding")
    (hdecode : c.FromUnstructured object = .ok rb)
    (hNs : ∀ (x : RoleBinding R) (n : String),
      c.GetNamespace (c.SetNamespace (c.ToUnstructured x) n) = n) :
    ∃ (sent : RoleBinding R) (res : Except GoError OperationResult),
      (createResource c ns o s).1.events
          = s.events ++ [Event.Run ns o,
              Event.CreateOrUpdate (c.SetNamespace (c.ToUnstructured sent) ns) res]
      ∧ c.GetNamespace (c.SetNamespace (c.ToUnstructured sent) ns) = ns
      ∧ (∀ subject ∈ sent.Subjects, subject.Namespace = ns)
      ∧ sent.Subjects.length = rb.Subjects.length
      ∧ (∀ i (h1 : i < sent.Subjects.length) (h2 : i < rb.Subjects.length),
          sent.Subjects[i].Kind = rb.Subjects[i].Kind
          ∧ sent.Subjects[i].APIGroup = rb.Subjects[i].APIGroup
          ∧ sent.Subjects[i].Name = rb.Subjects[i].Name)
      ∧ sent.Rest = rb.Rest := by
  have hsub : submitted c ns o = .ok (c.SetNamespace (c.ToUnstructured
      { rb with Subjects := rb.Subjects.map (fun subject => { subject with Namespace := ns }) })
      ns) := by
    simp [submitted, hparse, isRoleBinding, hkind, asRoleBinding, hdecode]
  refine ⟨{ rb with Subjects := rb.Subjects.map (fun subject => { subject with Namespace := ns }) },
    _, createResource_ok_events c ns o s _ hsub, hNs _ _, ?_, ?_, ?_, rfl⟩
  · intro subject hmem
    simp only [List.mem_map] at hmem
    obtain ⟨x, _, rfl⟩ := hmem
    rfl
  · simp
  · intro i h1 h2
    simp

/-- C6, at a concrete input: the template `viewers`, whose subjects refer to
the namespace `elsewhere` and to none, synchronized into the namespace `oil-dev` -/
theorem C6_role_binding_rewritten_witness :
    ∃ (sent : RoleBinding String) (res : Except GoError OperationResult),
      (createResource (plainCollaborators [] "") "oil-dev" "viewers" emptyCluster).1.events
          = emptyCluster.events ++ [Event.Run "oil-dev" "viewers",
              Event.CreateOrUpdate ((plainCollaborators [] "").SetNamespace
                ((plainCollaborators [] "").ToUnstructured sent) "oil-dev") res]
      ∧ (plainCollaborators [] "").GetNamespace ((plainCollaborators [] "").SetNamespace
          ((plainCollaborators [] "").ToUnstructured sent) "oil-dev") = "oil-dev"
      ∧ (∀ subject ∈ sent.Subjects, subject.Namespace = "oil-dev")
      ∧ sent.Subjects.length = 2
      ∧ (∀ i (h1 : i < sent.Subjects.length)
          (h2 : i < [(⟨"ServiceAccount", "", "robot", "elsewhere"⟩ : Subject),
                     ⟨"User", "rbac.authorization.k8s.io", "alice", ""⟩].length),
          sent.Subjects[i].Kind
              = [(⟨"ServiceAccount", "", "robot", "elsewhere"⟩ : Subject),
                 ⟨"User", "rbac.authorization.k8s.io", "alice", ""⟩][i].Kind
          ∧ sent.Subjects[i].APIGroup
              = [(⟨"ServiceAccount", "", "robot", "elsewhere"⟩ : Subject),
                 ⟨"User", "rbac.authorization.k8s.io", "alice", ""⟩][i].APIGroup
          ∧ sent.Subjects[i].Name
              = [(⟨"ServiceAccount", "", "robot", "elsewhere"⟩ : Subject),
                 ⟨"User", "rbac.authorization.k8s.io", "alice", ""⟩][i].Name)
      ∧ sent.Rest = "viewers" :=
  C6_role_binding_rewritten (plainCollaborators [] "") "oil-dev" "viewers" emptyCluster
    { kind := "RoleBinding", name := "viewers", ns := "",
      subjects := [⟨"ServiceAccount", "", "robot", "elsewhere"⟩,
                   ⟨"User", "rbac.authorization.k8s.io", "alice", ""⟩] }
    { Rest := "viewers",
      Subjects := [⟨"ServiceAccount", "", "robot", "elsewhere"⟩,
                   ⟨"User", "rbac.authorization.k8s.io", "alice", ""⟩] }
    rfl (by decide) rfl (fun _ _ => rfl)

/-- C7: for a listing returned by the store and a list of templates, the units
run one after the other in launch order. Every unit of the cross product of the
Active listed namespaces and the templates runs; `syncAdditionalResources`
returns an error exactly when some unit fails, and the error is that of the first
failing unit; nothing the store held is removed, and the object of every
succeeding unit, before or after a failure, is in the final store. -/
theorem C7_fan_out_first_error {Obj R : Type} (c : Collaborators Obj R) (t : Tenant)
    (a : AdditionalResources) (sel : Selector) (items : List Namespace) (s : Cluster Obj)
    (ha : t.Spec.AdditionalResources = some a)
    (hsel : buildSelector c t a = .ok sel)
    (hlist : c.ListNamespaces sel = .ok items) :
    (runs c (units a items) (afterList s sel)).map (fun r => (r.ns, r.o)) = units a items
    ∧ (∃ new, (syncAdditionalResources c t s).1.events = (afterList s sel).events ++ new
        ∧ new.filterMap Event.unit = units a items)
    ∧ (∀ r ∈ runs c (units a items) (afterList s sel),
        r.after = (createResource c r.ns r.o r.before).1
        ∧ r.err = (createResource c r.ns r.o r.before).2)
    ∧ ((∃ e, (syncAdditionalResources c t s).2 = some e)
        ↔ ∃ r ∈ runs c (units a items) (afterList s sel), ∃ e, r.err = some e)
    ∧ (∀ e, (syncAdditionalResources c t s).2 = some e →
        ∃ i, ∃ _ : i < (runs c (units a items) (afterList s sel)).length,
          (runs c (units a items) (afterList s sel))[i].err = some e
          ∧ ∀ j (_ : j < i) (_ : j < (runs c (units a items) (afterList s sel)).length),
              (runs c (units a items) (afterList s sel))[j].err = none)
    ∧ (∀ x ∈ s.objects, x ∈ (syncAdditionalResources c t s).1.objects)
    ∧ (∀ r ∈ runs c (units a items) (afterList s sel), r.err = none →
        ∃ obj res, submitted c r.ns r.o = .ok obj
          ∧ r.after.events
              = r.before.events ++ [Event.Run r.ns r.o, Event.CreateOrUpdate obj (.ok res)]
          ∧ (∃ x ∈ (syncAdditionalResources c t s).1.objects, objectKey c x = objectKey c obj)
          ∧ (res = OperationResult.Created →
              obj ∈ (syncAdditionalResources c t s).1.objects)) := by
  rw [syncAdditionalResources_listed c t a sel items s ha hsel hlist]
  refine ⟨runs_units _ _ _, ?_, ?_, ?_, ?_, ?_, ?_⟩
  · obtain ⟨new, h1, h2, _⟩ := Wait_events c (units a items) (afterList s sel) none
    exact ⟨new, h1, h2⟩
  · intro r hr
    obtain ⟨h1, h2, _⟩ := runs_after c (units a items) (afterList s sel) none r hr
    exact ⟨h1, h2⟩
  · rw [Wait_error]
    exact findSome_some_iff (fun r : UnitRun Obj => r.err) _
  · intro e he
    rw [Wait_error] at he
    exact findSome_first (fun r : UnitRun Obj => r.err) _ e he
  · intro x hx
    exact (Wait_objects c (units a items) (afterList s sel) none).1 x hx
  · intro r hr hnone
    obtain ⟨h1, h2, h3⟩ := runs_after c (units a items) (afterList s sel) none r hr
    rw [h2] at hnone
    obtain ⟨obj, res, hsub, hev, ⟨x, hx, hkey⟩, hcreated⟩ :=
      createResource_success c r.ns r.o r.before hnone
    rw [← h1] at hev hx hcreated
    exact ⟨obj, res, hsub, hev, ⟨x, h3 x hx, hkey⟩, fun hres => h3 obj (hcreated hres)⟩

/-- C7, at a concrete input: namespaces `oil-a` and `oil-b`, one template, the
store refusing every object in `oil-a`. The run returns that error, both units
ran, and the object of `oil-b` is in the store. -/
theorem C7_fan_out_first_error_witness :
    (syncAdditionalResources
        (plainCollaborators [oilNamespace "oil-a" "Active", oilNamespace "oil-b" "Active"] "oil-a")
        (oilWithResources [] ["settings"]) emptyCluster).2
      = some ⟨"the store refused the object", false⟩
    ∧ (⟨"ConfigMap", "settings", "oil-b", []⟩ : PlainObject) ∈
        (syncAdditionalResources
          (plainCollaborators [oilNamespace "oil-a" "Active", oilNamespace "oil-b" "Active"] "oil-a")
          (oilWithResources [] ["settings"]) emptyCluster).1.objects
    ∧ (∃ new, (syncAdditionalResources
          (plainCollaborators [oilNamespace "oil-a" "Active", oilNamespace "oil-b" "Active"] "oil-a")
          (oilWithResources [] ["settings"]) emptyCluster).1.events
            = [Event.List [⟨"env", Operator.In, ["prod"]⟩,
                ⟨"capsule.clastix.io/tenant", Operator.Equals, ["oil"]⟩]] ++ new
        ∧ new.filterMap Event.unit = [("oil-a", "settings"), ("oil-b", "settings")]) := by
  have h := C7_fan_out_first_error
    (plainCollaborators [oilNamespace "oil-a" "Active", oilNamespace "oil-b" "Active"] "oil-a")
    (oilWithResources [] ["settings"])
    { NamespaceSelector := { MatchLabels := [("env", "prod")], MatchExpressions := [] },
      Items := ["settings"] }
    [⟨"env", Operator.In, ["prod"]⟩, ⟨"capsule.clastix.io/tenant", Operator.Equals, ["oil"]⟩]
    [oilNamespace "oil-a" "Active", oilNamespace "oil-b" "Active"]
    emptyCluster rfl rfl rfl
  exact ⟨by decide, by decide, h.2.1⟩

theorem createResource_relist {Obj R : Type} (c : Collaborators Obj R)
    (f : Selector → Except GoError (List Namespace)) (ns o : String) (s : Cluster Obj) :
    createResource { c with ListNamespaces := f } ns o s = createResource c ns o s := rfl

theorem Wait_relist {Obj R : Type} (c : Collaborators Obj R)
    (f : Selector → Except GoError (List Namespace)) (us : List (String × String))
    (s : Cluster Obj) (first : Option GoError) :
    Wait { c with ListNamespaces := f } us s first = Wait c us s first := by
  induction us generalizing s first with
  | nil => rfl
  | cons u rest ih =>
    obtain ⟨ns, o⟩ := u
    simp only [Wait, createResource_relist, ih]

/-- C8: a listed namespace that is not Active launches no unit, and the run gives
the same error and leaves the same cluster as on the listing without it.
When no Active listed namespace bears its name, no unit and no
create-or-update targets it and the objects the store holds in it are unchanged. -/
theorem C8_inactive_namespace_skipped {Obj R : Type} (c : Collaborators Obj R) (t : Tenant)
    (a : AdditionalResources) (sel : Selector) (pre post : List Namespace) (n : Namespace)
    (s : Cluster Obj)
    (ha : t.Spec.AdditionalResources = some a)
    (hsel : buildSelector c t a = .ok sel)
    (hlist : c.ListNamespaces sel = .ok (pre ++ n :: post))
    (hphase : n.Status.Phase ≠ NamespaceActive) :
    launch a (pre ++ n :: post) = launch a (pre ++ post)
    ∧ syncAdditionalResources c t s
        = syncAdditionalResources { c with ListNamespaces := fun _ => .ok (pre ++ post) } t s
    ∧ ((∀ m ∈ pre ++ post, m.Status.Phase = NamespaceActive → m.Name ≠ n.Name) →
        ∃ new, (syncAdditionalResources c t s).1.events = s.events ++ new
          ∧ (∀ e ∈ new, ∀ o, e.unit ≠ some (n.Name, o))
          ∧ ((∀ x ns, c.GetNamespace (c.SetNamespace x ns) = ns) →
              (∀ obj ∈ new.filterMap Event.target, c.GetNamespace obj ≠ n.Name)
              ∧ (syncAdditionalResources c t s).1.objects.filter
                    (fun x => decide (c.GetNamespace x = n.Name))
                  = s.objects.filter (fun x => decide (c.GetNamespace x = n.Name)))) := by
  have hunits := units_skip a pre post n hphase
  have hrun := syncAdditionalResources_listed c t a sel _ s ha hsel hlist
  refine ⟨by rw [launch_eq_units, launch_eq_units, hunits], ?_, ?_⟩
  · rw [hrun, hunits]
    rw [syncAdditionalResources_listed { c with ListNamespaces := fun _ => .ok (pre ++ post) }
      t a sel (pre ++ post) s ha hsel rfl]
    exact (Wait_relist c _ _ _ _).symm
  · intro hdistinct
    have htarget : ∀ u ∈ units a (pre ++ post), u.1 ≠ n.Name := by
      intro u hu
      obtain ⟨m, hm, hp, hname, _⟩ := units_target a (pre ++ post) u hu
      rw [← hname]
      exact hdistinct m hm hp
    rw [hrun, hunits]
    obtain ⟨new, h1, h2, _, h4⟩ := Wait_events c (units a (pre ++ post)) (afterList s sel) none
    obtain ⟨added, k1, k2⟩ := Wait_added c (units a (pre ++ post)) (afterList s sel) none
    refine ⟨Event.List sel :: new, ?_, ?_, ?_⟩
    · rw [h1]
      simp [afterList]
    · intro e he o heq
      rcases List.mem_cons.mp he with rfl | he
      · simp [Event.unit] at heq
      · have hmem : (n.Name, o) ∈ new.filterMap Event.unit :=
          List.mem_filterMap.mpr ⟨e, he, heq⟩
        rw [h2] at hmem
        exact htarget _ hmem rfl
    · intro hNs
      constructor
      · intro obj hobj
        have hobj2 : obj ∈ new.filterMap Event.target := by
          simpa [List.filterMap_cons, Event.target] using hobj
        obtain ⟨u, hu, hsub⟩ := h4 obj hobj2
        rw [submitted_namespace c u.1 u.2 obj hNs hsub]
        exact htarget u hu
      · rw [k1, List.filter_append]
        have hnone : added.filter (fun x => decide (c.GetNamespace x = n.Name)) = [] := by
          rw [List.filter_eq_nil_iff]
          intro x hx
          obtain ⟨u, hu, hsub⟩ := k2 x hx
          rw [submitted_namespace c u.1 u.2 x hNs hsub]
          simpa using htarget u hu
        rw [hnone]
        simp [afterList]

/-- C8, at a concrete input: the listing holds `oil-a`, which is terminating, and
`oil-b`, which is Active. The terminating namespace launches nothing, the run
succeeds, and the only object created is the one of `oil-b`. -/
theorem C8_inactive_namespace_skipped_witness :
    launch { NamespaceSelector := { MatchLabels := [("env", "prod")], MatchExpressions := [] },
             Items := ["settings"] }
        ([] ++ oilNamespace "oil-a" "Terminating" :: [oilNamespace "oil-b" "Active"])
      = [("oil-b", "settings")]
    ∧ syncAdditionalResources
        (plainCollaborators [oilNamespace "oil-a" "Terminating", oilNamespace "oil-b" "Active"] "")
        (oilWithResources [] ["settings"]) emptyCluster
      = syncAdditionalResources
        (plainCollaborators [oilNamespace "oil-b" "Active"] "")
        (oilWithResources [] ["settings"]) emptyCluster
    ∧ (syncAdditionalResources
        (plainCollaborators [oilNamespace "oil-a" "Terminating", oilNamespace "oil-b" "Active"] "")
        (oilWithResources [] ["settings"]) emptyCluster).2 = none
    ∧ (syncAdditionalResources
        (plainCollaborators [oilNamespace "oil-a" "Terminating", oilNamespace "oil-b" "Active"] "")
        (oilWithResources [] ["settings"]) emptyCluster).1.objects
      = [⟨"ConfigMap", "settings", "oil-b", []⟩] := by
  have h := C8_inactive_namespace_skipped
    (plainCollaborators [oilNamespace "oil-a" "Terminating", oilNamespace "oil-b" "Active"] "")
    (oilWithResources [] ["settings"])
    { NamespaceSelector := { MatchLabels := [("env", "prod")], MatchExpressions := [] },
      Items := ["settings"] }
    [⟨"env", Operator.In, ["prod"]⟩, ⟨"capsule.clastix.io/tenant", Operator.Equals, ["oil"]⟩]
    [] [oilNamespace "oil-b" "Active"] (oilNamespace "oil-a" "Terminating")
    emptyCluster rfl rfl rfl (by decide)
  refine ⟨?_, h.2.1, by decide, by decide⟩
  rw [h.1]
  decide

/-- C9: when the constructor rejects at least one constraint of the namespace
selector, a `MatchLabels` entry or a `MatchExpressions` entry,
`syncAdditionalResources` returns the error of a rejected constraint, the first
one in the order in which the constraints are visited, and leaves the cluster as
it was: no listing is made, no create-or-update is issued and the store is
unchanged, whatever the other constraints are. -/
theorem C9_invalid_constraint_aborts {Obj R : Type} (c : Collaborators Obj R) (t : Tenant)
    (a : AdditionalResources) (s : Cluster Obj)
    (ha : t.Spec.AdditionalResources = some a)
    (hbad : (∃ kv ∈ a.NamespaceSelector.MatchLabels,
          ∃ err, NewRequirement kv.1 Operator.In [kv.2] = .error err)
        ∨ (∃ e ∈ a.NamespaceSelector.MatchExpressions,
          ∃ err, NewRequirement e.Key e.Operator e.Values = .error err)) :
    ∃ err, syncAdditionalResources c t s = (s, some err)
      ∧ ((∃ kv ∈ a.NamespaceSelector.MatchLabels,
            NewRequirement kv.1 Operator.In [kv.2] = .error err)
          ∨ (∃ e ∈ a.NamespaceSelector.MatchExpressions,
            NewRequirement e.Key e.Operator e.Values = .error err))
      ∧ (∃ pre x post, callerRequirements a.NamespaceSelector = pre ++ x :: post
          ∧ (∀ y ∈ pre, ∃ r, NewRequirement y.key y.operator y.strValues = .ok r)
          ∧ NewRequirement x.key x.operator x.strValues = .error err)
      ∧ (syncAdditionalResources c t s).1.events = s.events
      ∧ (syncAdditionalResources c t s).1.objects = s.objects := by
  by_cases hml : ∃ kv ∈ a.NamespaceSelector.MatchLabels,
      ∃ err, NewRequirement kv.1 Operator.In [kv.2] = .error err
  · obtain ⟨pre, kv, post, err, hsplit, hpre, herr, hres⟩ :=
      addMatchLabels_error NewSelector a.NamespaceSelector.MatchLabels hml
    have hsync : syncAdditionalResources c t s = (s, some err) := by
      simp [syncAdditionalResources, ha, buildSelector, hres]
    refine ⟨err, hsync, Or.inl ⟨kv, by rw [hsplit]; simp, herr⟩, ?_, by rw [hsync], by rw [hsync]⟩
    refine ⟨pre.map (fun kv => { key := kv.1, operator := Operator.In, strValues := [kv.2] }),
      { key := kv.1, operator := Operator.In, strValues := [kv.2] },
      post.map (fun kv => { key := kv.1, operator := Operator.In, strValues := [kv.2] })
        ++ a.NamespaceSelector.MatchExpressions.map
          (fun e => { key := e.Key, operator := e.Operator, strValues := e.Values }),
      ?_, ?_, herr⟩
    · simp [callerRequirements, hsplit]
    · intro y hy
      obtain ⟨x, hx, rfl⟩ := List.mem_map.mp hy
      exact hpre x hx
  · have hlabels : ∀ kv ∈ a.NamespaceSelector.MatchLabels,
        ∃ r, NewRequirement kv.1 Operator.In [kv.2] = .ok r := by
      intro kv hkv
      rcases NewRequirement_cases kv.1 Operator.In [kv.2] with h | ⟨err, h⟩
      · exact ⟨_, h⟩
      · exact absurd ⟨kv, hkv, err, h⟩ hml
    have hexprs : ∃ e ∈ a.NamespaceSelector.MatchExpressions,
        ∃ err, NewRequirement e.Key e.Operator e.Values = .error err := by
      rcases hbad with h | h
      · exact absurd h hml
      · exact h
    obtain ⟨pre, e, post, err, hsplit, hpre, herr, hres⟩ := addMatchExpressions_error
      (NewSelector ++ a.NamespaceSelector.MatchLabels.map
        (fun kv => { key := kv.1, operator := Operator.In, strValues := [kv.2] }))
      a.NamespaceSelector.MatchExpressions hexprs
    have hsync : syncAdditionalResources c t s = (s, some err) := by
      simp [syncAdditionalResources, ha, buildSelector, addMatchLabels_ok _ _ hlabels, hres]
    refine ⟨err, hsync, Or.inr ⟨e, by rw [hsplit]; simp, herr⟩, ?_, by rw [hsync], by rw [hsync]⟩
    refine ⟨a.NamespaceSelector.MatchLabels.map
        (fun kv => { key := kv.1, operator := Operator.In, strValues := [kv.2] })
        ++ pre.map (fun e => { key := e.Key, operator := e.Operator, strValues := e.Values }),
      { key := e.Key, operator := e.Operator, strValues := e.Values },
      post.map (fun e => { key := e.Key, operator := e.Operator, strValues := e.Values }),
      ?_, ?_, herr⟩
    · simp [callerRequirements, hsplit]
    · intro y hy
      rcases List.mem_append.mp hy with hy | hy
      · obtain ⟨x, hx, rfl⟩ := List.mem_map.mp hy
        exact hlabels x hx
      · obtain ⟨x, hx, rfl⟩ := List.mem_map.mp hy
        exact hpre x hx

/-- C9, at two concrete inputs. First a `MatchLabels` entry whose value is not a
valid label value, next to a valid expression constraint; then a valid
`tier in (gold, silver)` next to an `Exists` constraint that carries a value.
Each run returns the configuration error of the rejected constraint and leaves
the cluster as before. -/
theorem C9_invalid_constraint_aborts_witness :
    (∃ err, syncAdditionalResources (plainCollaborators [oilNamespace "oil-dev" "Active"] "")
        (oilSelecting [("env", "not valid!")] [tierGoldSilver] ["settings"])
        emptyCluster = (emptyCluster, some err)
      ∧ NewRequirement "env" Operator.In ["not valid!"] = .error err
      ∧ err = ⟨"invalid label value", false⟩)
    ∧ (∃ err, syncAdditionalResources (plainCollaborators [oilNamespace "oil-dev" "Active"] "")
        (oilSelecting [("env", "prod")] [tierGoldSilver, ⟨"zone", Operator.Exists, ["a"]⟩]
          ["settings"])
        emptyCluster = (emptyCluster, some err)
      ∧ NewRequirement "zone" Operator.Exists ["a"] = .error err
      ∧ err = ⟨"values set must be empty for exists and does not exist", false⟩) := by
  constructor
  · obtain ⟨err, hsync, _, _, _, _⟩ :=
      C9_invalid_constraint_aborts (plainCollaborators [oilNamespace "oil-dev" "Active"] "")
        (oilSelecting [("env", "not valid!")] [tierGoldSilver] ["settings"])
        { NamespaceSelector :=
            { MatchLabels := [("env", "not valid!")], MatchExpressions := [tierGoldSilver] },
          Items := ["settings"] }
        emptyCluster rfl
        (Or.inl ⟨("env", "not valid!"), by simp, _, rfl⟩)
    have hrun : syncAdditionalResources (plainCollaborators [oilNamespace "oil-dev" "Active"] "")
        (oilSelecting [("env", "not valid!")] [tierGoldSilver] ["settings"]) emptyCluster
        = (emptyCluster, some ⟨"invalid label value", false⟩) := rfl
    rw [hrun] at hsync
    injection hsync with _ h2
    injection h2 with h3
    subst h3
    exact ⟨_, hrun, rfl, rfl⟩
  · obtain ⟨err, hsync, _, _, _, _⟩ :=
      C9_invalid_constraint_aborts (plainCollaborators [oilNamespace "oil-dev" "Active"] "")
        (oilSelecting [("env", "prod")] [tierGoldSilver, ⟨"zone", Operator.Exists, ["a"]⟩]
          ["settings"])
        { NamespaceSelector :=
            { MatchLabels := [("env", "prod")],
              MatchExpressions := [tierGoldSilver, ⟨"zone", Operator.Exists, ["a"]⟩] },
          Items := ["settings"] }
        emptyCluster rfl
        (Or.inr ⟨⟨"zone", Operator.Exists, ["a"]⟩, by simp, _, rfl⟩)
    have hrun : syncAdditionalResources (plainCollaborators [oilNamespace "oil-dev" "Active"] "")
        (oilSelecting [("env", "prod")] [tierGoldSilver, ⟨"zone", Operator.Exists, ["a"]⟩]
          ["settings"]) emptyCluster
        = (emptyCluster, some ⟨"values set must be empty for exists and does not exist", false⟩) :=
      rfl
    rw [hrun] at hsync
    injection hsync with _ h2
    injection h2 with h3
    subst h3
    exact ⟨_, hrun, rfl, rfl⟩

end Capsule
